import Mathlib

/-!
Shallow embedding of the camera configuration subsystem of the
lib-3d-scene-viewer repository (file src/camera/camera.ts together with the
constants of src/config/cameraConfig.ts and src/config/cameraAnimationConfig.ts),
with theorems settling the frozen claims about it.

JavaScript numbers are modelled as real numbers; property bags (configuration
objects, the dynamic properties of a camera object) are modelled as
insertion-ordered association lists, matching the iteration order of
JavaScript `for ... in` loops and of `Map` objects.
-/

namespace V3D

noncomputable section

open scoped Classical

/-- Three-component vector, modelling the engine type Vector3 (data part only). -/
structure Vec3 where
  x : ℝ
  y : ℝ
  z : ℝ

/-- Vector3.Zero() -/
def Vec3.zero : Vec3 := ⟨0, 0, 0⟩

/-- JavaScript runtime values appearing in camera configuration bags and on
camera objects: numbers, booleans, strings, engine vectors, null, undefined and
nested plain objects.  The constructor `nan` stands for the garbage produced by
numeric coercion of a non-numeric operand (a corner no claim ever reaches:
under the TypeScript types of the repository the coerced positions are always
numbers). -/
inductive Value where
  | num (x : ℝ)
  | bool (b : Bool)
  | str (s : String)
  | vec3 (v : Vec3)
  | null
  | undef
  | obj (fields : List (String × Value))
  | nan

/-- JavaScript truthiness of a value: false, 0, the empty string, null,
undefined and NaN are falsy, everything else is truthy. -/
def Value.truthy : Value → Bool
  | .num x => decide (x ≠ 0)
  | .bool b => b
  | .str s => decide (s ≠ "")
  | .vec3 _ => true
  | .null => false
  | .undef => false
  | .obj _ => true
  | .nan => false

/-- A value is nullish when it is null or undefined (the values handled by the
JavaScript `??` operator). -/
def Value.isNullish : Value → Bool
  | .null => true
  | .undef => true
  | _ => false

/-- Recognize the undefined value (the `value === undefined` test). -/
def Value.isUndef : Value → Bool
  | .undef => true
  | _ => false

/-- Reading a field of a value, as JavaScript property access: fields of plain
objects are looked up, any other access yields undefined.  (Reading a field of
null or undefined throws in JavaScript; every such read in the source is
guarded by a truthiness test, so the case is unreachable.) -/
def Value.getField : Value → String → Value
  | .obj fields, key => (fields.lookup key).getD .undef
  | _, _ => (.undef)

/-- `v ?? d` on an optional lookup result, where `none` models an absent key
(which reads as undefined in JavaScript). -/
def nullishD : Option Value → Value → Value
  | some v, d => if v.isNullish then d else v
  | none, d => d

/-- `v || d` on an optional lookup result: keep `v` when truthy, else `d`. -/
def truthyD : Option Value → Value → Value
  | some v, d => if v.truthy then v else d
  | none, d => d

/-- Association list lookup by key (JavaScript object / Map read). -/
def find? {α : Type} : List (String × α) → String → Option α
  | [], _ => none
  | (k, v) :: t, key => if k = key then some v else find? t key

/-- Association list update (JavaScript object write / Map.set): an existing
key keeps its position and gets the new value, a new key is appended. -/
def upsert {α : Type} : List (String × α) → String → α → List (String × α)
  | [], key, v => [(key, v)]
  | (k, w) :: t, key, v => if k = key then (k, v) :: t else (k, w) :: upsert t key v

/-- Association list deletion (Map.delete). -/
def eraseKey {α : Type} : List (String × α) → String → List (String × α)
  | [], _ => []
  | (k, w) :: t, key => if k = key then t else (k, w) :: eraseKey t key

/-- Key membership (Map.has). -/
def hasKey {α : Type} (l : List (String × α)) (key : String) : Bool :=
  (find? l key).isSome

/-- The keys of an association list. -/
def keysOf {α : Type} (l : List (String × α)) : List String :=
  l.map Prod.fst

/-- Split a character list at the first occurrence of a pattern: the part
before the first occurrence and the part after it, or none when the pattern
does not occur. -/
def splitFirst (pat : List Char) : List Char → Option (List Char × List Char)
  | [] => if pat.isPrefixOf ([] : List Char) then some ([], []) else none
  | c :: t =>
    if pat.isPrefixOf (c :: t) then some ([], (c :: t).drop pat.length)
    else (splitFirst pat t).map (fun r => (c :: r.1, r.2))

/-- The JavaScript `String.prototype.includes` test: does `sub` occur in `s`? -/
def strIncludes (s sub : String) : Bool :=
  (splitFirst sub.data s.data).isSome

/-- The JavaScript `s.split(sub)[0]`: the part of `s` before the first
occurrence of `sub`, or all of `s` when `sub` does not occur. -/
def splitHead (s sub : String) : String :=
  match splitFirst sub.data s.data with
  | some r => String.mk r.1
  | none => s

/-- Scalar.Repeat from the engine math library:
`value - Math.floor(value / length) * length`. -/
def Repeat (value len : ℝ) : ℝ :=
  value - (⌊value / len⌋ : ℝ) * len

/-- Scalar.DeltaAngle from the engine math library: the difference
`target - current` wrapped into the interval (-180, 180]. -/
def DeltaAngle (current target : ℝ) : ℝ :=
  let n := Repeat (target - current) 360
  if n > 180 then n - 360 else n

/-- Tools.ToRadians from the engine: `angle * Math.PI / 180`. -/
def ToRadians (angle : ℝ) : ℝ := angle * Real.pi / 180

/-- Tools.ToDegrees from the engine: `angle * 180 / Math.PI`. -/
def ToDegrees (angle : ℝ) : ℝ := angle * 180 / Real.pi

/-- Tools.ToRadians applied to an untyped configuration value
(`Tools.ToRadians(value as number)`); the coerced position is always a number
under the TypeScript config types, any other value is mapped to NaN-garbage. -/
def Value.toRadians : Value → Value
  | .num x => .num (ToRadians x)
  | _ => .nan

/-- CAMERA_PROPERTIES_TO_IGNORE_DURING_EXTRACTION from
src/config/cameraConfig.ts. -/
def CAMERA_PROPERTIES_TO_IGNORE_DURING_EXTRACTION : List String :=
  ["attachControl", "autoRotationBehavior", "cameraAnimationConfig", "enable",
   "framingBehavior", "type", "minimizeRotation"]

/-- ARC_ROTATE_CAMERA_LIMIT_PROPERTIES from src/config/cameraConfig.ts. -/
def ARC_ROTATE_CAMERA_LIMIT_PROPERTIES : List String :=
  ["lowerAlphaLimit", "upperAlphaLimit", "lowerBetaLimit", "upperBetaLimit",
   "lowerRadiusLimit", "upperRadiusLimit"]

/-- Animation.ANIMATIONTYPE_FLOAT (engine constant). -/
def ANIMATIONTYPE_FLOAT : ℕ := 0

/-- Animation.ANIMATIONTYPE_VECTOR3 (engine constant). -/
def ANIMATIONTYPE_VECTOR3 : ℕ := 1

/-- CAMERA_ANIMATION_TYPE_MAP from src/config/cameraAnimationConfig.ts. -/
def CAMERA_ANIMATION_TYPE_MAP : List (String × ℕ) :=
  [("fov", ANIMATIONTYPE_FLOAT), ("target", ANIMATIONTYPE_VECTOR3),
   ("alpha", ANIMATIONTYPE_FLOAT), ("beta", ANIMATIONTYPE_FLOAT),
   ("radius", ANIMATIONTYPE_FLOAT)]

/-- DEFAULT_CAMERA_ANIMATION_CONFIG from src/config/cameraAnimationConfig.ts,
as a configuration value (the easing function object is represented by its
class name; no claim inspects it). -/
def DEFAULT_CAMERA_ANIMATION_CONFIG : Value :=
  .obj [("easingFunction", .str "CubicEase"),
        ("easingMode", .str "EASINGMODE_EASEINOUT"),
        ("loopMode", .str "ANIMATIONLOOPMODE_CONSTANT"),
        ("maxFPS", .num 60)]

/-- Camera._convertDegreesToRadians (camera.ts lines 317-321):
`key.split('InDegrees')[0]` re-keys to the part before the first occurrence of
InDegrees, and the value is converted with Tools.ToRadians. -/
def convertDegreesToRadians (key : String) (value : Value) : String × Value :=
  (splitHead key "InDegrees", value.toRadians)

/-- The result record of Camera._extractConfigProperties. -/
structure ExtractedProperties where
  animatableValuesToUpdate : List (String × Value)
  specialAnimatableValuesToUpdate : List (String × Value)
  nonAnimatableValuesToUpdate : List (String × Value)

/-- The key conversion step the extraction loop performs on each non-ignored
entry (camera.ts lines 340-342): a key containing InDegrees is converted (re-
keyed to the part before the first occurrence, value turned into radians),
every other key passes through unchanged. -/
def convStep (key : String) (value : Value) : String × Value :=
  if strIncludes key "InDegrees" then convertDegreesToRadians key value
  else (key, value)

/-- The classification step of the extraction loop (camera.ts lines 344-353):
the target key goes to the special map, keys of the animation type map to the
animatable map, everything else to the non-animatable map. -/
def classifyInto (acc : ExtractedProperties) (kv : String × Value) :
    ExtractedProperties :=
  if kv.1 = "target" then
    { acc with specialAnimatableValuesToUpdate := upsert acc.specialAnimatableValuesToUpdate kv.1 kv.2 }
  else if hasKey CAMERA_ANIMATION_TYPE_MAP kv.1 then
    { acc with animatableValuesToUpdate := upsert acc.animatableValuesToUpdate kv.1 kv.2 }
  else
    { acc with nonAnimatableValuesToUpdate := upsert acc.nonAnimatableValuesToUpdate kv.1 kv.2 }

/-- One iteration of the extraction loop of Camera._extractConfigProperties
(camera.ts lines 332-354): skip ignored meta keys, convert, then classify. -/
def extractStep (acc : ExtractedProperties) (entry : String × Value) :
    ExtractedProperties :=
  if entry.1 ∈ CAMERA_PROPERTIES_TO_IGNORE_DURING_EXTRACTION then acc
  else classifyInto acc (convStep entry.1 entry.2)

/-- Camera._extractConfigProperties (camera.ts lines 323-361), over the
ordered key/value entries of the configuration object. -/
def extractConfigProperties (prop : List (String × Value)) : ExtractedProperties :=
  prop.foldl extractStep ⟨[], [], []⟩

/-- An engine Animation object as built by Camera._createArcRotateCameraAnimation:
its target property, its animation type, the animation style configuration it
was built from, and its two keyframes (frame, value).  The animation name
`Camera-key-value-Animation` is determined by the target property within this
component (a camera animation list never holds two animations for the same
property), so it is not modelled separately. -/
structure Anim where
  targetProperty : String
  animType : ℕ
  animConfig : Value
  keys : List (ℝ × Value)

/-- A live ArcRotateCamera object: its name, its dynamic properties (read and
written by name in the source), its animation list, its control-attachment
state and the observers registered on onViewMatrixChangedObservable
(represented by allocation ids). -/
structure ArcRotateCamera where
  name : String
  props : List (String × Value)
  animations : List Anim
  attached : Bool
  observers : List ℕ

/-- Dynamic property read `camera[key]` (an absent key reads as undefined). -/
def ArcRotateCamera.get (c : ArcRotateCamera) (key : String) : Value :=
  (find? c.props key).getD (.undef)

/-- Dynamic property write `camera[key] = v`. -/
def ArcRotateCamera.set (c : ArcRotateCamera) (key : String) (v : Value) :
    ArcRotateCamera :=
  { c with props := upsert c.props key v }

/-- Camera._createArcRotateCameraAnimation (camera.ts lines 363-416): build a
two-keyframe animation from the current camera value to the target value,
applying the rotation-minimization rewrite of the end value for numeric alpha
and beta targets when the flag is truthy. -/
def createArcRotateCameraAnimation (key : String) (value : Value) (lastFrame : ℝ)
    (camera : ArcRotateCamera) (cameraAnimationConfig : Value)
    (minimizeRotation : Value) : Anim :=
  let startVal := camera.get key
  let endVal :=
    if minimizeRotation.truthy then
      match value with
      | .num e =>
        if key = "alpha" ∨ key = "beta" then
          match startVal with
          | .num s => .num (s + ToRadians (DeltaAngle (ToDegrees s) (ToDegrees e)))
          | _ => Value.nan
        else value
      | _ => value
    else value
  { targetProperty := key
    animType := (find? CAMERA_ANIMATION_TYPE_MAP key).getD ANIMATIONTYPE_FLOAT
    animConfig := cameraAnimationConfig
    keys := [(0, startVal), (lastFrame, endVal)] }

/-- The scene collaborator (SceneManager.scene) as consumed by the camera
component: the camera registry, the active-camera slot, a log of disposed
cameras, the currently running animations, a log of begun playbacks
(camera name, last frame) and an oracle `midVal` giving the in-flight value
of an animated property when its animation is stopped before completion
(that value depends on real elapsed time and is unknowable in this model;
every claim is proved for an arbitrary oracle). -/
structure Scene where
  cameras : List String
  activeCamera : Option String
  disposedCameras : List String
  running : List (String × Anim)
  playbackLog : List (String × ℝ)
  midVal : String → String → Value

/-- A scene with no cameras, given an oracle for in-flight animation values. -/
def Scene.empty (midVal : String → String → Value) : Scene :=
  { cameras := [], activeCamera := none, disposedCameras := [], running := [], playbackLog := [], midVal := midVal }

/-- scene.removeCamera: drop the camera from the registry. -/
def Scene.removeCam (sc : Scene) (cameraName : String) : Scene :=
  { sc with cameras := sc.cameras.erase cameraName }

/-- camera.dispose(): the engine removes the camera from the scene registry
and releases it; the release is recorded in the disposed log. -/
def Scene.disposeCamera (sc : Scene) (cameraName : String) : Scene :=
  { sc with cameras := sc.cameras.erase cameraName, disposedCameras := sc.disposedCameras ++ [cameraName] }

/-- Is an animation for this camera and target property currently playing? -/
def Scene.isRunning (sc : Scene) (cameraName key : String) : Bool :=
  sc.running.any (fun e => e.1 == cameraName && e.2.targetProperty == key)

/-- Remove a running animation for this camera and target property. -/
def Scene.stopRunning (sc : Scene) (cameraName key : String) : Scene :=
  { sc with running := sc.running.filter (fun e => !(e.1 == cameraName && e.2.targetProperty == key)) }

/-- The state owned by the Camera class (camera.ts lines 49-92): the per-name
tracking maps, the scene collaborator and an allocation counter for observer
handles.  The source keys every map by camera name and the map entry for a
camera always carries that same name, so camera objects are addressed by
name here. -/
structure Camera where
  cameraMap : List (String × ArcRotateCamera)
  latestUpdateIndexMap : List (String × ℕ)
  firstCameraInteractionMap : List (String × Bool)
  firstCameraInteractionObserverMap : List (String × ℕ)
  cameraViewMatrixMap : List (String × Option Unit)
  scene : Scene
  nextObserverId : ℕ

/-- Update the tracked camera object of the given name, when present. -/
def modifyCamera (st : Camera) (cameraName : String)
    (f : ArcRotateCamera → ArcRotateCamera) : Camera :=
  match find? st.cameraMap cameraName with
  | some c => { st with cameraMap := upsert st.cameraMap cameraName (f c) }
  | none => st

/-- new ArcRotateCamera(name, 0, 0, 1, Vector3.Zero(), scene): the constructor
argument properties together with the engine defaults documented by the
repository configuration types (fov 0.8, inertia 0.9, minZ 1, maxZ 10000,
speed 2); the six limit properties start unset (null).  The exact engine
defaults of the beta limits are engine internal and no claim depends on them. -/
def newArcRotateCamera (cameraName : String) : ArcRotateCamera :=
  { name := cameraName
    props := [("alpha", .num 0), ("beta", .num 0), ("radius", .num 1),
      ("target", .vec3 Vec3.zero), ("fov", .num 0.8), ("inertia", .num 0.9),
      ("minZ", .num 1), ("maxZ", .num 10000), ("speed", .num 2),
      ("lowerAlphaLimit", .null), ("upperAlphaLimit", .null),
      ("lowerBetaLimit", .null), ("upperBetaLimit", .null),
      ("lowerRadiusLimit", .null), ("upperRadiusLimit", .null)]
    animations := []
    attached := false
    observers := [] }

/-- The Camera class constructor (camera.ts lines 72-92): empty tracking maps
and one default camera named DefaultCamera with control attached.  Note the
default camera is put in the camera map but gets no entry in any other map. -/
def Camera.new (sc : Scene) : Camera :=
  { cameraMap := [("DefaultCamera",
      { newArcRotateCamera "DefaultCamera" with attached := true })]
    latestUpdateIndexMap := []
    firstCameraInteractionMap := []
    firstCameraInteractionObserverMap := []
    cameraViewMatrixMap := []
    scene := { sc with cameras := sc.cameras ++ ["DefaultCamera"] }
    nextObserverId := 0 }

/-- scene.stopAnimation(camera, anim.name): when that animation is playing on
that camera it stops, and the animated property keeps its in-flight value,
given by the midVal oracle.  Animation names (`Camera-key-value-Animation`)
are identified by their target property: within this component the running
animations of a camera always come from its latest begun animation list,
which never holds two animations for one property. -/
def stopAnimationOn (st : Camera) (cameraName : String) (a : Anim) : Camera :=
  if st.scene.isRunning cameraName a.targetProperty then
    let st1 := modifyCamera st cameraName
      (fun c => c.set a.targetProperty (st.scene.midVal cameraName a.targetProperty))
    { st1 with scene := st1.scene.stopRunning cameraName a.targetProperty }
  else st

/-- scene.beginAnimation(camera, 0, lastFrame): the call is logged and every
animation of the camera animation list starts playing. -/
def beginAnimationOn (st : Camera) (cameraName : String) (lastFrame : ℝ) : Camera :=
  match find? st.cameraMap cameraName with
  | some c =>
    let sc := st.scene
    { st with scene := { sc with running := sc.running ++ c.animations.map (fun a => (cameraName, a)), playbackLog := sc.playbackLog ++ [(cameraName, lastFrame)] } }
  | none => st

/-- Camera._removeCamera (camera.ts lines 437-447): when the name is tracked,
remove the camera from the scene registry, delete the entries of the camera
map, the update-index map, the first-interaction flag map and the view-matrix
map (the observer map is not touched), and dispose the camera object. -/
def removeCamera (st : Camera) (cameraName : String) : Camera :=
  match find? st.cameraMap cameraName with
  | none => st
  | some _ =>
    { cameraMap := eraseKey st.cameraMap cameraName
      latestUpdateIndexMap := eraseKey st.latestUpdateIndexMap cameraName
      firstCameraInteractionMap := eraseKey st.firstCameraInteractionMap cameraName
      firstCameraInteractionObserverMap := st.firstCameraInteractionObserverMap
      cameraViewMatrixMap := eraseKey st.cameraViewMatrixMap cameraName
      scene := (st.scene.removeCam cameraName).disposeCamera cameraName
      nextObserverId := st.nextObserverId }

/-- Camera._createCamera (camera.ts lines 418-435), arcRotateCamera case:
build a new engine camera (registered in the scene), make it the active
camera and track it with generation counter 0, interaction flag false and a
null view-matrix snapshot.  The onCameraCreated notification carries no state
consulted by any claim and is not modelled. -/
def createCamera (st : Camera) (cameraName : String) : Camera :=
  { cameraMap := upsert st.cameraMap cameraName (newArcRotateCamera cameraName)
    latestUpdateIndexMap := upsert st.latestUpdateIndexMap cameraName 0
    firstCameraInteractionMap := upsert st.firstCameraInteractionMap cameraName false
    firstCameraInteractionObserverMap := st.firstCameraInteractionObserverMap
    cameraViewMatrixMap := upsert st.cameraViewMatrixMap cameraName none
    scene := { st.scene with cameras := st.scene.cameras ++ [cameraName], activeCamera := some cameraName }
    nextObserverId := st.nextObserverId }

/-- The per-name information live across the playback await of
Camera._updateArcRotateCamera when the duration is positive: the camera name,
the generation snapshot taken after the bump, the saved limit values, the
extracted non-animatable values and the begun animation batch. -/
structure PendingUpdate where
  cameraName : String
  updateIndexAtStart : ℕ
  oldCameraLimits : List (String × Value)
  nonAnimatableValuesToUpdate : List (String × Value)
  anims : List Anim

/-- Attach or detach control (camera.ts lines 170-175). -/
def applyAttachControl (st : Camera) (cameraName : String)
    (prop : List (String × Value)) : Camera :=
  modifyCamera st cameraName (fun c =>
    { c with attached := (nullishD (find? prop "attachControl") (.bool true)).truthy })

/-- AutoRotation behavior block (camera.ts lines 177-190): when the config
block is truthy, useAutoRotationBehavior is assigned enabled-or-false, and
when the behavior is thereby attached its four tuning values are assigned
with their defaults. -/
def applyAutoRotationBehavior (st : Camera) (cameraName : String)
    (prop : List (String × Value)) : Camera :=
  let arb := (find? prop "autoRotationBehavior").getD .undef
  if arb.truthy then
    let enabled := nullishD (some (arb.getField "enabled")) (.bool false)
    modifyCamera st cameraName (fun c =>
      let c := c.set "useAutoRotationBehavior" enabled
      if enabled.truthy then
        let c := c.set "autoRotationBehavior.idleRotationSpeed"
          (nullishD (some (arb.getField "idleRotationSpeed")) (.num 1))
        let c := c.set "autoRotationBehavior.idleRotationWaitTime"
          (nullishD (some (arb.getField "idleRotationWaitTime")) (.num 100))
        let c := c.set "autoRotationBehavior.idleRotationSpinupTime"
          (nullishD (some (arb.getField "idleRotationSpinupTime")) (.num 100))
        c.set "autoRotationBehavior.zoomStopsAnimation"
          (nullishD (some (arb.getField "zoomStopsAnimation")) (.bool false))
      else c)
  else st

/-- Framing behavior block (camera.ts lines 192-202). -/
def applyFramingBehavior (st : Camera) (cameraName : String)
    (prop : List (String × Value)) : Camera :=
  let fb := (find? prop "framingBehavior").getD .undef
  if fb.truthy then
    let enabled := nullishD (some (fb.getField "enabled")) (.bool false)
    modifyCamera st cameraName (fun c =>
      let c := c.set "useFramingBehavior" enabled
      let c :=
        if enabled.truthy then
          let c := c.set "framingBehavior.elevationReturnTime" (.num (-1))
          let c := c.set "framingBehavior.framingTime"
            (nullishD (some (fb.getField "framingTime")) (.num 0))
          let c := c.set "framingBehavior.radiusScale"
            (nullishD (some (fb.getField "radiusScale")) (.num 1))
          c.set "framingBehavior.autoCorrectCameraLimitsAndSensibility" (.bool true)
        else c
      c.set "overrideCloneAlphaBetaRadius" enabled)
  else st

/-- Stop and clear all camera animations (camera.ts lines 209-213). -/
def stopAndClearAnimations (st : Camera) (cameraName : String) : Camera :=
  match find? st.cameraMap cameraName with
  | none => st
  | some c =>
    let st := c.animations.foldl (fun s a => stopAnimationOn s cameraName a) st
    modifyCamera st cameraName (fun c => { c with animations := [] })

/-- Build the camera animation list (camera.ts lines 227-253): push one
animation per animatable entry in order, then prepend the target animation,
whose value defaults to the zero vector. -/
def buildCameraAnimations (st : Camera) (cameraName : String)
    (ext : ExtractedProperties) (animCfg : Value) (minimizeRotation : Value)
    (lastFrame : ℝ) : Camera :=
  modifyCamera st cameraName (fun c =>
    let pushed := c.animations ++ ext.animatableValuesToUpdate.map
      (fun kv => createArcRotateCameraAnimation kv.1 kv.2 lastFrame c animCfg minimizeRotation)
    let target := nullishD (find? ext.specialAnimatableValuesToUpdate "target") (.vec3 Vec3.zero)
    { c with animations :=
        createArcRotateCameraAnimation "target" target lastFrame c animCfg minimizeRotation :: pushed })

/-- Save the current limit values and clear them (camera.ts lines 255-264). -/
def saveAndClearLimits (st : Camera) (cameraName : String) :
    Camera × List (String × Value) :=
  match find? st.cameraMap cameraName with
  | none => (st, [])
  | some c =>
    let old := ARC_ROTATE_CAMERA_LIMIT_PROPERTIES.map (fun p => (p, c.get p))
    (modifyCamera st cameraName (fun c =>
      ARC_ROTATE_CAMERA_LIMIT_PROPERTIES.foldl (fun c p => c.set p .null) c), old)

/-- Remove a previously registered first-interaction observer (camera.ts
lines 266-269): the stored handle is removed from the camera observable; the
observer map entry itself remains. -/
def removeOldObserver (st : Camera) (cameraName : String) : Camera :=
  match find? st.firstCameraInteractionObserverMap cameraName with
  | none => st
  | some obs => modifyCamera st cameraName (fun c => { c with observers := c.observers.erase obs })

/-- Apply the final keyframe of every camera animation directly (camera.ts
lines 275-281, the zero-duration path). -/
def assignFinalKeyframes (st : Camera) (cameraName : String) : Camera :=
  modifyCamera st cameraName (fun c =>
    c.animations.foldl
      (fun cam a => cam.set a.targetProperty ((a.keys.getLast?.map Prod.snd).getD .undef)) c)

/-- The object-spread merge `{...oldCameraLimits, ...nonAnimatableValues}`
(camera.ts lines 290-293): saved limit entries first, non-animatable entries
override shared keys. -/
def mergeEntries (old nonAnim : List (String × Value)) : List (String × Value) :=
  nonAnim.foldl (fun acc kv => upsert acc kv.1 kv.2)
    (old.foldl (fun acc kv => upsert acc kv.1 kv.2) [])

/-- Register the first-interaction observer (camera.ts lines 302-313): a fresh
observer handle is added to the camera view-matrix observable and stored in
the observer map.  The observer body only runs on later user interaction
events, outside the scope of every claim. -/
def registerObserver (st : Camera) (cameraName : String) : Camera :=
  let obs := st.nextObserverId
  let st1 := modifyCamera st cameraName (fun c => { c with observers := c.observers ++ [obs] })
  { st1 with firstCameraInteractionObserverMap := upsert st1.firstCameraInteractionObserverMap cameraName obs, nextObserverId := st.nextObserverId + 1 }

/-- The guarded post-animation block (camera.ts lines 283-314): only when the
generation counter of the name still equals the snapshot, clear the camera
animation list, write back the merged limit and non-animatable values
(skipping undefined ones), and register a first-interaction observer when
none has fired for this camera yet. -/
def postAnimationOps (st : Camera) (p : PendingUpdate) : Camera :=
  if find? st.latestUpdateIndexMap p.cameraName = some p.updateIndexAtStart then
    let st1 := modifyCamera st p.cameraName (fun c => { c with animations := [] })
    let st2 := modifyCamera st1 p.cameraName (fun c =>
      (mergeEntries p.oldCameraLimits p.nonAnimatableValuesToUpdate).foldl
        (fun cam kv => if kv.2.isUndef then cam else cam.set kv.1 kv.2) c)
    if (find? st2.firstCameraInteractionMap p.cameraName).getD false = false then
      registerObserver st2 p.cameraName
    else st2
  else st

/-- Resolution of the awaited playback: every animation of the begun batch
that is still playing reaches its final keyframe and stops; animations
stopped earlier by a newer cycle already left their in-flight value at stop
time and contribute nothing here. -/
def applyPlaybackCompletion (st : Camera) (p : PendingUpdate) : Camera :=
  p.anims.foldl (fun s a =>
    if s.scene.isRunning p.cameraName a.targetProperty then
      let s1 := modifyCamera s p.cameraName
        (fun c => c.set a.targetProperty ((a.keys.getLast?.map Prod.snd).getD .undef))
      { s1 with scene := s1.scene.stopRunning p.cameraName a.targetProperty }
    else s) st

/-- Numeric reading of an animation duration value; under the TypeScript
types the field is a number or absent, and absence was already defaulted to
0 by the nullish coalescing, so other shapes are unreachable. -/
def Value.asNumD : Value → ℝ
  | .num x => x
  | _ => 0

/-- The animation list of the tracked camera of a name. -/
def animsOf (st : Camera) (cameraName : String) : List Anim :=
  match find? st.cameraMap cameraName with
  | some c => c.animations
  | none => []

/-- The last-frame rule (camera.ts lines 222-224): the last frame is the
duration in seconds times 60 when the duration is positive, else 1. -/
def lastFrameOf (animationDuration : ℝ) : ℝ :=
  if animationDuration > 0 then animationDuration * 60 else 1

/-- Outcome of running Camera._updateArcRotateCamera up to its only suspension
point: the update either finished synchronously (disabled entry, or zero
duration including its post-animation block) or began a playback and
suspended.  The possibly mutated caller-owned property object is carried
along. -/
inductive UpdateOutcome where
  | finished (st : Camera) (prop : List (String × Value))
  | suspended (st : Camera) (prop : List (String × Value)) (p : PendingUpdate)

/-- The configured animation duration of a property bag
(`cameraProperty.animationDuration ?? 0`, camera.ts line 220). -/
def durationOf (prop : List (String × Value)) : ℝ :=
  (nullishD (find? prop "animationDuration") (.num 0)).asNumD

/-- The first half of the common update path for an enabled entry (camera.ts
lines 163-213): get or create the camera, apply control attachment and the
behavior blocks, bump and snapshot the generation counter, and stop and clear
the animations.  Returns the state and the generation snapshot. -/
def prePhaseA (st : Camera) (prop : List (String × Value))
    (cameraName : String) : Camera × ℕ :=
  -- lines 163-167: get or create the camera
  let st := if hasKey st.cameraMap cameraName then st else createCamera st cameraName
  let st := applyAttachControl st cameraName prop
  let st := applyAutoRotationBehavior st cameraName prop
  let st := applyFramingBehavior st cameraName prop
  -- lines 204-207: bump the generation counter and snapshot it
  let idx := (find? st.latestUpdateIndexMap cameraName).getD 0 + 1
  let st := { st with latestUpdateIndexMap := upsert st.latestUpdateIndexMap cameraName idx }
  -- lines 209-213
  (stopAndClearAnimations st cameraName, idx)

/-- The part of Camera._updateArcRotateCamera common to both duration paths,
for an enabled entry (camera.ts lines 163-269): the first half above, then
extract the configuration properties, build the new animation list, save and
clear the camera limits and remove the previously registered observer.
Returns the state and the information live across the await. -/
def prePhaseCommon (st : Camera) (prop : List (String × Value))
    (cameraName : String) : Camera × PendingUpdate :=
  let a := prePhaseA st prop cameraName
  -- lines 215-217
  let ext := extractConfigProperties prop
  -- lines 219-224
  let animCfg := truthyD (find? prop "cameraAnimationConfig") DEFAULT_CAMERA_ANIMATION_CONFIG
  let lastFrame := lastFrameOf (durationOf prop)
  -- lines 227-253
  let st := buildCameraAnimations a.1 cameraName ext animCfg
    ((find? prop "minimizeRotation").getD .undef) lastFrame
  -- lines 255-264
  let pair := saveAndClearLimits st cameraName
  let st := pair.1
  -- lines 266-269
  let st := removeOldObserver st cameraName
  (st, { cameraName := cameraName, updateIndexAtStart := a.2,
         oldCameraLimits := pair.2,
         nonAnimatableValuesToUpdate := ext.nonAnimatableValuesToUpdate,
         anims := animsOf st cameraName })

/-- Camera._updateArcRotateCamera (camera.ts lines 155-315) up to the playback
await.  The generation counter read uses the stored value, present for every
camera created through _createCamera (the only cameras reachable here). -/
def updateArcRotateCameraPhase1 (st : Camera) (prop : List (String × Value))
    (cameraName : String) : UpdateOutcome :=
  -- line 157: cameraProperty.enable = cameraProperty.enable ?? true
  let enableVal := nullishD (find? prop "enable") (.bool true)
  let prop := upsert prop "enable" enableVal
  -- lines 158-161: a disabled camera is removed and the update returns
  if !enableVal.truthy then .finished (removeCamera st cameraName) prop
  else
    let r := prePhaseCommon st prop cameraName
    if durationOf prop > 0 then
      -- line 273: begin the playback and suspend on waitAsync
      .suspended (beginAnimationOn r.1 cameraName (lastFrameOf (durationOf prop))) prop r.2
    else
      -- lines 275-281 then 283-314 run synchronously
      .finished (postAnimationOps (assignFinalKeyframes r.1 cameraName) r.2) prop

/-- Camera._updateArcRotateCamera from the resolution of the playback await
(camera.ts lines 273-314): the completed playback has taken the still running
animations to their final keyframes, the caller-owned property object gets
animationDuration 0, and the guarded post-animation block runs. -/
def updateArcRotateCameraPhase2 (st : Camera) (prop : List (String × Value))
    (p : PendingUpdate) : Camera × List (String × Value) :=
  let st := applyPlaybackCompletion st p
  let prop := upsert prop "animationDuration" (.num 0)
  (postAnimationOps st p, prop)

/-- A full, un-overlapped run of Camera._updateArcRotateCamera: when the
update suspends on playback, the playback completes with no interleaved cycle
and the post phase runs. -/
def updateArcRotateCameraRun (st : Camera) (prop : List (String × Value))
    (cameraName : String) : Camera × List (String × Value) :=
  match updateArcRotateCameraPhase1 st prop cameraName with
  | .finished st prop => (st, prop)
  | .suspended st prop p => updateArcRotateCameraPhase2 st prop p

/-- Does an entry carry the type tag arcRotateCamera? -/
def isArcRotateType (v : Option Value) : Bool :=
  match v with
  | some (.str s) => s == "arcRotateCamera"
  | _ => false

/-- The updateCameras loop body (camera.ts lines 106-112): only entries whose
type is arcRotateCamera are processed, every other entry is skipped silently. -/
def processEntry (st : Camera) (e : String × List (String × Value)) :
    Camera × (String × List (String × Value)) :=
  if isArcRotateType (find? e.2 "type") then
    let r := updateArcRotateCameraRun st e.2 e.1
    (r.1, (e.1, r.2))
  else (st, e)

/-- Sequential processing of the configuration entries, carrying the already
processed (possibly mutated) entries. -/
def processEntriesGo (st : Camera) (acc : List (String × List (String × Value))) :
    List (String × List (String × Value)) →
    Camera × List (String × List (String × Value))
  | [] => (st, acc)
  | e :: rest =>
    let r := processEntry st e
    processEntriesGo r.1 (acc ++ [r.2]) rest

/-- Sequential processing of the configuration entries. -/
def processEntries (st : Camera) (cfg : List (String × List (String × Value))) :
    Camera × List (String × List (String × Value)) :=
  processEntriesGo st [] cfg

/-- Camera.updateCameras (camera.ts lines 98-113) for un-overlapped calls: an
empty configuration returns at once, otherwise the default camera is removed
first and every entry is processed in order.  The returned configuration is
the caller-owned object after the mutations the call performs on it. -/
def updateCameras (st : Camera) (cfg : List (String × List (String × Value))) :
    Camera × List (String × List (String × Value)) :=
  if cfg.isEmpty then (st, cfg)
  else processEntries (removeCamera st "DefaultCamera") cfg

/-- Camera.willAddOrRemoveCameras (camera.ts lines 120-134). -/
def willAddOrRemoveCameras (st : Camera) :
    List (String × List (String × Value)) → Bool
  | [] => false
  | (cameraName, prop) :: rest =>
    let enable := nullishD (find? prop "enable") (.bool true)
    if !enable.truthy then true
    else if !hasKey st.cameraMap cameraName then true
    else willAddOrRemoveCameras st rest

/-- The per-camera body of the Camera.dispose loop (camera.ts lines 140-147):
stop every animation of the camera, clear its animation list and dispose the
camera object. -/
def disposeCameraEntry (s : Camera) (e : String × ArcRotateCamera) : Camera :=
  let s := e.2.animations.foldl (fun s a => stopAnimationOn s e.1 a) s
  let s := modifyCamera s e.1 (fun c => { c with animations := [] })
  { s with scene := s.scene.disposeCamera e.1 }

/-- Camera.dispose (camera.ts lines 139-153): run the per-camera loop over
every tracked camera, then clear the camera map, the interaction flag map,
the update index map and the view-matrix map.  The observer map is not
cleared. -/
def Camera.dispose (st : Camera) : Camera :=
  let st := st.cameraMap.foldl disposeCameraEntry st
  { st with cameraMap := [], firstCameraInteractionMap := [], latestUpdateIndexMap := [], cameraViewMatrixMap := [] }

/-- The state component of an update outcome. -/
def UpdateOutcome.state : UpdateOutcome → Camera
  | .finished st _ => st
  | .suspended st _ _ => st

/-- The mutated caller-owned property object of an update outcome. -/
def UpdateOutcome.propOut : UpdateOutcome → List (String × Value)
  | .finished _ prop => prop
  | .suspended _ prop _ => prop

/-- Did the update suspend on a playback await? -/
def UpdateOutcome.suspendedB : UpdateOutcome → Bool
  | .finished _ _ => false
  | .suspended _ _ _ => true

/-- The pending information of a suspended outcome (dummy when finished). -/
def UpdateOutcome.pendingD : UpdateOutcome → PendingUpdate
  | .finished _ _ => ⟨"", 0, [], [], []⟩
  | .suspended _ _ p => p

/-- Resume a suspended update on a possibly different (interleaved) state:
the phase after the await runs on the state the interleaved work produced.
A finished update has nothing to resume. -/
def resumeAfter (mid : Camera) : UpdateOutcome → Camera
  | .finished _ _ => mid
  | .suspended _ prop p => (updateArcRotateCameraPhase2 mid prop p).1

/-- Read a property of the tracked camera of a name. -/
def getCamProp (st : Camera) (cameraName key : String) : Value :=
  match find? st.cameraMap cameraName with
  | some c => c.get key
  | none => (.undef)

/-- A fresh configurator over an empty scene with the given in-flight-value
oracle (an instance of the Camera class right after construction). -/
def initialCamera (midVal : String → String → Value) : Camera :=
  Camera.new (Scene.empty midVal)

/-- A sample oracle for witnesses: every in-flight value reads as undefined. -/
def oracleU : String → String → Value := fun _ _ => (.undef)

/-- An association list has no duplicate keys.  Every map of the Camera state
has this shape by construction (JavaScript Map and object keys are unique). -/
def NoDupKeys {α : Type} (l : List (String × α)) : Prop :=
  (l.map Prod.fst).Nodup

/-- Is a configured enable value the literal boolean false? -/
def isExplicitFalse : Option Value → Bool
  | some (.bool false) => true
  | _ => false

/-- The reading of willAddOrRemoveCameras asserted by the specification: some
entry would cause a create (name absent from the live map and enabled, enable
defaulting to true) or a destroy (name present and enable explicitly false). -/
def willAddOrRemoveCamerasClaimed (st : Camera)
    (cfg : List (String × List (String × Value))) : Bool :=
  cfg.any (fun e =>
    (!hasKey st.cameraMap e.1 && (nullishD (find? e.2 "enable") (.bool true)).truthy)
    || (hasKey st.cameraMap e.1 && isExplicitFalse (find? e.2 "enable")))

/-- The key conversion step as the specification describes it for claim C8:
exactly the keys ending in the degree suffix are converted, re-keyed to the
prefix before the suffix; every other key is left unchanged. -/
def convStepClaimed (key : String) (value : Value) : String × Value :=
  if ("InDegrees".data).isSuffixOf key.data then
    (String.mk (key.data.take (key.data.length - ("InDegrees".data).length)), value.toRadians)
  else (key, value)

/-- The first configure call of the staleness-guard scenario of claim C1:
an arc-rotate entry with a five second animation. -/
def scnPropSlow : List (String × Value) :=
  [("type", .str "arcRotateCamera"), ("animationDuration", .num 5)]

/-- The second, overlapping configure call of the staleness-guard scenario of
claim C1: an arc-rotate entry with no animation and an explicit radius 5. -/
def scnPropFast : List (String × Value) :=
  [("type", .str "arcRotateCamera"), ("animationDuration", .num 0), ("radius", .num 5)]

/-- Claim C1 scenario, step 1: the first configure call runs until its
playback await (the non-empty call removes the default camera first, then the
per-camera update of name A starts and suspends). -/
def scnStart (midVal : String → String → Value) : UpdateOutcome :=
  updateArcRotateCameraPhase1 (removeCamera (initialCamera midVal) "DefaultCamera") scnPropSlow "A"

/-- Claim C1 scenario, step 2: while the first call is awaiting its playback,
the second configure call for the same name runs to completion (its duration
is zero, so it never suspends). -/
def scnMid (midVal : String → String → Value) : Camera :=
  (updateCameras (scnStart midVal).state [("A", scnPropFast)]).1

/-- Claim C1 scenario, step 3: the first call resumes after its (stopped)
playback settles, on the state the second call produced. -/
def scnFinal (midVal : String → String → Value) : Camera :=
  resumeAfter (scnMid midVal) (scnStart midVal)

/-- A sample single-entry arc-rotate configuration with no duration. -/
def sampleProp : List (String × Value) := [("type", Value.str "arcRotateCamera")]

/-- The first animation generated by the pre phase of the sample update (used
to witness the per-animation last-frame statement at a concrete input). -/
def samplePreAnim : Anim :=
  (animsOf (prePhaseCommon (initialCamera oracleU) sampleProp "A").1 "A").headD
    ⟨"", 0, Value.undef, []⟩

/-- A camera whose alpha is the running angle 350 degrees (in radians), for
the rotation-minimization example. -/
def camera350 : ArcRotateCamera :=
  (newArcRotateCamera "c").set "alpha" (.num (ToRadians 350))

/-- Classification invariant of the three extraction maps: every special key
is the target key, every animatable key is a non-target key of the animation
type map, every non-animatable key is neither the target key nor in the type
map. -/
def ExtractInv (r : ExtractedProperties) : Prop :=
  (∀ key ∈ keysOf r.specialAnimatableValuesToUpdate, key = "target") ∧
  (∀ key ∈ keysOf r.animatableValuesToUpdate,
    key ≠ "target" ∧ hasKey CAMERA_ANIMATION_TYPE_MAP key = true) ∧
  (∀ key ∈ keysOf r.nonAnimatableValuesToUpdate,
    key ≠ "target" ∧ hasKey CAMERA_ANIMATION_TYPE_MAP key = false)

/-- First configuration of the minimization example: set alpha of camera A to
the full turn two-pi (duration absent, so assigned directly). -/
def propC6a : List (String × Value) :=
  [("type", .str "arcRotateCamera"), ("alpha", .num (2 * Real.pi))]

/-- Second configuration of the minimization example: alpha 0 with
minimizeRotation on and no duration. -/
def propC6b : List (String × Value) :=
  [("type", .str "arcRotateCamera"), ("alpha", .num 0),
   ("minimizeRotation", .bool true)]

/-- The state with camera A created. -/
def stC6 : Camera := createCamera (initialCamera oracleU) "A"

/-- After the first configuration of the minimization example. -/
def stC6a : Camera := (updateArcRotateCameraRun stC6 propC6a "A").1

/-- After the second configuration of the minimization example. -/
def stC6b : Camera := (updateArcRotateCameraRun stC6a propC6b "A").1

/-! ## Association list lemmas -/

theorem find?_upsert {α : Type} (l : List (String × α)) (k key : String) (v : α) :
    find? (upsert l k v) key = if k = key then some v else find? l key := by
  induction l with
  | nil => by_cases h : k = key <;> simp [upsert, find?, h]
  | cons e t ih =>
    obtain ⟨k1, w⟩ := e
    by_cases h1 : k1 = k
    · subst h1
      by_cases h2 : k1 = key
      · subst h2
        simp [upsert, find?]
      · simp [upsert, find?, h2]
    · by_cases h2 : k1 = key
      · subst h2
        have h3 : k ≠ k1 := fun hc => h1 hc.symm
        simp [upsert, find?, h1, h3]
      · simp [upsert, find?, h1, h2, ih]

theorem find?_eq_none_of_not_mem {α : Type} (l : List (String × α)) (key : String)
    (h : key ∉ l.map Prod.fst) : find? l key = none := by
  induction l with
  | nil => rfl
  | cons e t ih =>
    obtain ⟨k1, w⟩ := e
    have h1 : k1 ≠ key := by
      intro hc
      exact h (by simp [hc])
    simp [find?, h1]
    exact ih (fun hm => h (by simp [hm]))

theorem find?_eraseKey {α : Type} (l : List (String × α)) (k key : String)
    (h : NoDupKeys l) :
    find? (eraseKey l k) key = if k = key then none else find? l key := by
  induction l with
  | nil => by_cases hk : k = key <;> simp [eraseKey, find?, hk]
  | cons e t ih =>
    obtain ⟨k1, w⟩ := e
    have h0 : (k1 :: t.map Prod.fst).Nodup := by simpa [NoDupKeys] using h
    have hnm : k1 ∉ t.map Prod.fst := (List.nodup_cons.mp h0).1
    have hnd : NoDupKeys t := (List.nodup_cons.mp h0).2
    by_cases h1 : k1 = k
    · subst h1
      by_cases h2 : k1 = key
      · subst h2
        simp [eraseKey, find?, find?_eq_none_of_not_mem t k1 hnm]
      · simp [eraseKey, find?, h2]
    · by_cases h2 : k1 = key
      · subst h2
        have h3 : k ≠ k1 := fun hc => h1 hc.symm
        simp [eraseKey, find?, h1, h3]
      · simp [eraseKey, find?, h1, h2, ih hnd]

/-! ## Claim C3: willAddOrRemoveCameras -/

/-- Helper: the loop of willAddOrRemoveCameras is the any-fold of the
disabled-or-absent test. -/
theorem willAddOrRemove_eq_any (st : Camera)
    (cfg : List (String × List (String × Value))) :
    willAddOrRemoveCameras st cfg =
      cfg.any (fun e =>
        !(nullishD (find? e.2 "enable") (.bool true)).truthy || !hasKey st.cameraMap e.1) := by
  induction cfg with
  | nil => rfl
  | cons e rest ih =>
    obtain ⟨cameraName, prop⟩ := e
    by_cases h1 : (nullishD (find? prop "enable") (.bool true)).truthy <;>
      by_cases h2 : hasKey st.cameraMap cameraName <;>
        simp [willAddOrRemoveCameras, h1, h2, ih]

/-- Claim C3, counterexample to the claim as stated: for a configuration
entry whose name is absent from the live camera map and whose enable is
explicitly false, the code returns true although the claimed
create-or-destroy condition (absent-and-enabled, or present-and-disabled)
does not hold. -/
theorem claimC3_counterexample :
    willAddOrRemoveCameras (initialCamera oracleU)
        [("X", [("enable", .bool false)])] = true ∧
    willAddOrRemoveCamerasClaimed (initialCamera oracleU)
        [("X", [("enable", .bool false)])] = false := by
  constructor
  · simp [willAddOrRemoveCameras, find?, nullishD, Value.isNullish, Value.truthy]
  · simp [willAddOrRemoveCamerasClaimed, initialCamera, Camera.new, Scene.empty,
      hasKey, find?, nullishD, Value.isNullish, Value.truthy, isExplicitFalse]

/-- Claim C3, amended: willAddOrRemoveCameras returns true exactly when some
entry of the configuration is not enabled (its enable value, defaulting to
true, is falsy) or its name is absent from the live camera map; the presence
of the name is not required for the disabled case.  In particular, for a
configuration all of whose entries name already-present, enabled cameras, it
returns false. -/
theorem claimC3_theorem (st : Camera) (cfg : List (String × List (String × Value))) :
    (willAddOrRemoveCameras st cfg =
      cfg.any (fun e =>
        !(nullishD (find? e.2 "enable") (.bool true)).truthy || !hasKey st.cameraMap e.1)) ∧
    ((∀ e ∈ cfg, hasKey st.cameraMap e.1 = true ∧
        (nullishD (find? e.2 "enable") (.bool true)).truthy = true) →
      willAddOrRemoveCameras st cfg = false) := by
  refine ⟨willAddOrRemove_eq_any st cfg, ?_⟩
  intro h
  rw [willAddOrRemove_eq_any st cfg]
  rw [List.any_eq_false]
  intro e he
  obtain ⟨h1, h2⟩ := h e he
  simp [h1, h2]

/-- Claim C3 witness: the amended theorem applied to the fresh configurator
and a configuration naming the present, enabled default camera. -/
theorem claimC3_witness :
    willAddOrRemoveCameras (initialCamera oracleU) [("DefaultCamera", [])] = false := by
  refine (claimC3_theorem (initialCamera oracleU) [("DefaultCamera", [])]).2 ?_
  intro e he
  rcases List.mem_singleton.mp he with rfl
  constructor
  · simp [initialCamera, Camera.new, Scene.empty, hasKey, find?]
  · simp [find?, nullishD, Value.truthy]

/-! ## Camera state step lemmas: animation lists -/

theorem animsOf_sceneSet (st : Camera) (sc : Scene) (m : String) :
    animsOf { st with scene := sc } m = animsOf st m := rfl

theorem animsOf_modify_of_preserve (st : Camera) (n m : String)
    (f : ArcRotateCamera → ArcRotateCamera)
    (hf : ∀ c, (f c).animations = c.animations) :
    animsOf (modifyCamera st n f) m = animsOf st m := by
  by_cases hnm : n = m
  · subst hnm
    cases hc : find? st.cameraMap n <;>
      simp [animsOf, modifyCamera, hc, find?_upsert, hf]
  · cases hc : find? st.cameraMap n <;>
      simp [animsOf, modifyCamera, hc, find?_upsert, hnm]

theorem animations_foldl_setNull (l : List String) (c : ArcRotateCamera) :
    (l.foldl (fun c p => c.set p Value.null) c).animations = c.animations := by
  induction l generalizing c with
  | nil => rfl
  | cons p t ih =>
    rw [List.foldl_cons, ih]
    rfl

theorem animsOf_applyAttachControl (st : Camera) (n m : String)
    (prop : List (String × Value)) :
    animsOf (applyAttachControl st n prop) m = animsOf st m :=
  animsOf_modify_of_preserve st n m _ (fun _ => rfl)

theorem animsOf_applyAutoRotationBehavior (st : Camera) (n m : String)
    (prop : List (String × Value)) :
    animsOf (applyAutoRotationBehavior st n prop) m = animsOf st m := by
  unfold applyAutoRotationBehavior
  dsimp only
  split
  · apply animsOf_modify_of_preserve
    intro c
    dsimp only
    split <;> simp [ArcRotateCamera.set]
  · rfl

theorem animsOf_applyFramingBehavior (st : Camera) (n m : String)
    (prop : List (String × Value)) :
    animsOf (applyFramingBehavior st n prop) m = animsOf st m := by
  unfold applyFramingBehavior
  dsimp only
  split
  · apply animsOf_modify_of_preserve
    intro c
    dsimp only
    split <;> simp [ArcRotateCamera.set]
  · rfl

theorem animsOf_stopAnimationOn (st : Camera) (cn m : String) (a : Anim) :
    animsOf (stopAnimationOn st cn a) m = animsOf st m := by
  unfold stopAnimationOn
  split
  · rw [animsOf_sceneSet]
    exact animsOf_modify_of_preserve st cn m _ (fun _ => rfl)
  · rfl

theorem animsOf_foldl_stop (l : List Anim) (st : Camera) (cn m : String) :
    animsOf (l.foldl (fun s a => stopAnimationOn s cn a) st) m = animsOf st m := by
  induction l generalizing st with
  | nil => rfl
  | cons a t ih => rw [List.foldl_cons, ih, animsOf_stopAnimationOn]

theorem animsOf_stopAndClear_self (st : Camera) (n : String) :
    animsOf (stopAndClearAnimations st n) n = [] := by
  unfold stopAndClearAnimations
  cases hc : find? st.cameraMap n
  · simp [animsOf, hc]
  · generalize (Option.some _).get _ = c at *
    dsimp only
    generalize List.foldl _ st _ = st1
    cases hc1 : find? st1.cameraMap n <;>
      simp [animsOf, modifyCamera, hc1, find?_upsert]

theorem animsOf_saveAndClearLimits (st : Camera) (n m : String) :
    animsOf (saveAndClearLimits st n).1 m = animsOf st m := by
  unfold saveAndClearLimits
  cases hc : find? st.cameraMap n
  · rfl
  · exact animsOf_modify_of_preserve st n m _ (fun c => animations_foldl_setNull _ c)

theorem animsOf_removeOldObserver (st : Camera) (n m : String) :
    animsOf (removeOldObserver st n) m = animsOf st m := by
  unfold removeOldObserver
  cases find? st.firstCameraInteractionObserverMap n
  · rfl
  · exact animsOf_modify_of_preserve st n m _ (fun _ => rfl)

theorem animsOf_build_keys (st : Camera) (n : String) (ext : ExtractedProperties)
    (cfgA minim : Value) (lf : ℝ) (h : animsOf st n = []) (a : Anim)
    (ha : a ∈ animsOf (buildCameraAnimations st n ext cfgA minim lf) n) :
    ∃ sv ev, a.keys = [(0, sv), (lf, ev)] := by
  unfold buildCameraAnimations at ha
  cases hc : find? st.cameraMap n
  · rw [modifyCamera, hc] at ha
    rw [h] at ha
    exact absurd ha (List.not_mem_nil a)
  · rename_i c
    have hanim : c.animations = [] := by simpa [animsOf, hc] using h
    simp only [modifyCamera, hc, animsOf, find?_upsert, if_pos rfl] at ha
    simp only [hanim, List.nil_append] at ha
    rcases List.mem_cons.mp ha with hT | hM
    · exact ⟨_, _, by rw [hT]; rfl⟩
    · rcases List.mem_map.mp hM with ⟨kv, _, hkv⟩
      exact ⟨_, _, by rw [← hkv]; rfl⟩

theorem pre_anims_lastframe (st : Camera) (prop : List (String × Value))
    (cameraName : String) (a : Anim)
    (ha : a ∈ animsOf (prePhaseCommon st prop cameraName).1 cameraName) :
    ∃ sv ev, a.keys = [(0, sv), (lastFrameOf (durationOf prop), ev)] := by
  simp only [prePhaseCommon] at ha
  rw [animsOf_removeOldObserver, animsOf_saveAndClearLimits] at ha
  refine animsOf_build_keys _ _ _ _ _ _ ?_ a ha
  unfold prePhaseA
  dsimp only
  exact animsOf_stopAndClear_self _ _

/-! ## Claim C4: animation frame count -/

/-- Claim C4, counterexample to the claim as stated: with animation duration
1/128 second (positive and strictly below 1/60), the generated animation has
last keyframe frame 15/32, not the claimed floor of 1. -/
theorem claimC4_counterexample :
    ((animsOf (updateArcRotateCameraPhase1 (removeCamera (initialCamera oracleU) "DefaultCamera")
        [("type", .str "arcRotateCamera"), ("animationDuration", .num (1/128))] "A").state "A").map
      (fun a => (a.keys.map Prod.fst).getLast?)) = [some ((15:ℝ)/32)] ∧
    (0 < (1:ℝ)/128 ∧ (1:ℝ)/128 < 1/60 ∧ (15:ℝ)/32 ≠ 1) := by
  constructor
  · norm_num +decide [updateArcRotateCameraPhase1, prePhaseCommon, initialCamera, Camera.new,
      Scene.empty, removeCamera, find?, eraseKey, upsert, hasKey, Scene.removeCam,
      Scene.disposeCamera, nullishD, Value.isNullish, Value.truthy, durationOf, Value.asNumD,
      createCamera, newArcRotateCamera, applyAttachControl, applyAutoRotationBehavior,
      applyFramingBehavior, modifyCamera, Value.getField, stopAndClearAnimations,
      stopAnimationOn, Scene.isRunning, Scene.stopRunning, extractConfigProperties, extractStep,
      CAMERA_PROPERTIES_TO_IGNORE_DURING_EXTRACTION, strIncludes, convertDegreesToRadians,
      Value.toRadians, CAMERA_ANIMATION_TYPE_MAP, ANIMATIONTYPE_FLOAT, ANIMATIONTYPE_VECTOR3,
      truthyD, DEFAULT_CAMERA_ANIMATION_CONFIG, lastFrameOf, buildCameraAnimations,
      createArcRotateCameraAnimation, ArcRotateCamera.get, ArcRotateCamera.set,
      saveAndClearLimits, ARC_ROTATE_CAMERA_LIMIT_PROPERTIES, removeOldObserver, animsOf,
      beginAnimationOn, UpdateOutcome.state, List.getLast?]
  · norm_num

/-- Claim C4, amended: the last frame is duration times 60 when the duration
is positive and 1 when it is zero or negative (absent durations default to
zero); there is no floor at 1 for positive durations, so positive durations
below 1/60 second give a fractional last frame below 1.  Every animation
generated by the pre phase of a cycle carries exactly that last frame as the
frame of its end keyframe. -/
theorem claimC4_theorem :
    (∀ d : ℝ, 0 < d → lastFrameOf d = d * 60) ∧
    (∀ d : ℝ, d ≤ 0 → lastFrameOf d = 1) ∧
    (∀ st prop cameraName a,
      a ∈ animsOf (prePhaseCommon st prop cameraName).1 cameraName →
      ∃ sv ev, a.keys = [(0, sv), (lastFrameOf (durationOf prop), ev)]) := by
  refine ⟨?_, ?_, fun st prop cameraName a ha => pre_anims_lastframe st prop cameraName a ha⟩
  · intro d hd
    simp [lastFrameOf, hd]
  · intro d hd
    simp [lastFrameOf, not_lt.mpr hd]

/-- Claim C4 witness: the amended theorem applied at durations 2 and 0 and at
the target animation generated by a sample zero-duration update. -/
theorem claimC4_witness :
    lastFrameOf 2 = 2 * 60 ∧ lastFrameOf 0 = 1 ∧
    (∃ sv ev, samplePreAnim.keys = [(0, sv), (lastFrameOf (durationOf sampleProp), ev)]) := by
  refine ⟨claimC4_theorem.1 2 (by norm_num), claimC4_theorem.2.1 0 (by norm_num),
    claimC4_theorem.2.2 (initialCamera oracleU) sampleProp "A" samplePreAnim ?_⟩
  norm_num +decide [samplePreAnim, sampleProp, prePhaseCommon, initialCamera, Camera.new,
    Scene.empty, find?, eraseKey, upsert, hasKey, nullishD, Value.isNullish, Value.truthy,
    durationOf, Value.asNumD, createCamera, newArcRotateCamera, applyAttachControl,
    applyAutoRotationBehavior, applyFramingBehavior, modifyCamera, Value.getField,
    stopAndClearAnimations, stopAnimationOn, Scene.isRunning, Scene.stopRunning,
    extractConfigProperties, extractStep, CAMERA_PROPERTIES_TO_IGNORE_DURING_EXTRACTION,
    strIncludes, convertDegreesToRadians, Value.toRadians, CAMERA_ANIMATION_TYPE_MAP,
    ANIMATIONTYPE_FLOAT, ANIMATIONTYPE_VECTOR3, truthyD, DEFAULT_CAMERA_ANIMATION_CONFIG,
    lastFrameOf, buildCameraAnimations, createArcRotateCameraAnimation, ArcRotateCamera.get,
    ArcRotateCamera.set, saveAndClearLimits, ARC_ROTATE_CAMERA_LIMIT_PROPERTIES,
    removeOldObserver, animsOf]

/-! ## Angle wrap lemmas (engine math collaborators) -/

theorem Repeat_bounds (v l : ℝ) (hl : 0 < l) : 0 ≤ Repeat v l ∧ Repeat v l < l := by
  unfold Repeat
  have h1 : (⌊v / l⌋ : ℝ) * l ≤ v := by
    have := mul_le_mul_of_nonneg_right (Int.floor_le (v / l)) hl.le
    rwa [div_mul_cancel₀ v hl.ne'] at this
  have h2 : v < ((⌊v / l⌋ : ℝ) + 1) * l := by
    have := mul_lt_mul_of_pos_right (Int.lt_floor_add_one (v / l)) hl
    rwa [div_mul_cancel₀ v hl.ne'] at this
  rw [add_mul, one_mul] at h2
  constructor <;> linarith

theorem DeltaAngle_bounds (c t : ℝ) :
    -180 < DeltaAngle c t ∧ DeltaAngle c t ≤ 180 := by
  obtain ⟨h0, h1⟩ := Repeat_bounds (t - c) 360 (by norm_num)
  unfold DeltaAngle
  dsimp only
  by_cases hn : Repeat (t - c) 360 > 180
  · rw [if_pos hn]
    constructor <;> linarith
  · rw [if_neg hn]
    push_neg at hn
    constructor <;> linarith

theorem DeltaAngle_congruent (c t : ℝ) :
    ∃ k : ℤ, DeltaAngle c t = (t - c) + 360 * k := by
  unfold DeltaAngle
  dsimp only
  by_cases hn : Repeat (t - c) 360 > 180
  · refine ⟨-⌊(t - c) / 360⌋ - 1, ?_⟩
    rw [if_pos hn]
    unfold Repeat
    push_cast
    ring
  · refine ⟨-⌊(t - c) / 360⌋, ?_⟩
    rw [if_neg hn]
    unfold Repeat
    push_cast
    ring

theorem ToDegrees_ToRadians (x : ℝ) : ToDegrees (ToRadians x) = x := by
  unfold ToRadians ToDegrees
  field_simp

theorem minimized_delta_bounds (s e : ℝ) :
    -Real.pi < ToRadians (DeltaAngle (ToDegrees s) (ToDegrees e)) ∧
    ToRadians (DeltaAngle (ToDegrees s) (ToDegrees e)) ≤ Real.pi := by
  obtain ⟨hb1, hb2⟩ := DeltaAngle_bounds (ToDegrees s) (ToDegrees e)
  unfold ToRadians
  constructor
  · nlinarith [Real.pi_pos]
  · nlinarith [Real.pi_pos]

theorem minimized_delta_congruent (s e : ℝ) :
    ∃ k : ℤ, ToRadians (DeltaAngle (ToDegrees s) (ToDegrees e)) =
      (e - s) + 2 * Real.pi * k := by
  obtain ⟨k, hk⟩ := DeltaAngle_congruent (ToDegrees s) (ToDegrees e)
  refine ⟨k, ?_⟩
  rw [ToRadians, hk, ToDegrees, ToDegrees]
  have hpi := Real.pi_ne_zero
  field_simp
  ring

theorem DeltaAngle_350_10 : DeltaAngle 350 10 = 20 := by
  unfold DeltaAngle Repeat
  have hf : ⌊((10 : ℝ) - 350) / 360⌋ = -1 := by
    rw [Int.floor_eq_iff]
    constructor <;> norm_num
  rw [hf]
  norm_num

/-! ## Claim C2: rotation minimization -/

/-- Claim C2: with the minimizeRotation flag truthy, a numeric target for the
alpha or beta rotation angle animates from the current value s to s + d where
d is the target-minus-current difference wrapped into (-pi, pi] (that is,
(-180, 180] degrees), so the path never exceeds a half turn; any other
property, a falsy flag, or a non-numeric target animates to the literal
target value; and the 350-to-10 degree example ends at 370 degrees. -/
theorem claimC2_theorem :
    (∀ (camera : ArcRotateCamera) (key : String) (e lf : ℝ) (animCfg minim : Value) (s : ℝ),
      minim.truthy = true → (key = "alpha" ∨ key = "beta") → camera.get key = .num s →
      ∃ d : ℝ, (createArcRotateCameraAnimation key (.num e) lf camera animCfg minim).keys
          = [(0, .num s), (lf, .num (s + d))] ∧
        (-Real.pi < d ∧ d ≤ Real.pi) ∧ (∃ k : ℤ, d = (e - s) + 2 * Real.pi * k)) ∧
    (∀ (camera : ArcRotateCamera) (key : String) (value : Value) (lf : ℝ) (animCfg minim : Value),
      (minim.truthy = false ∨ (key ≠ "alpha" ∧ key ≠ "beta") ∨ (∀ x : ℝ, value ≠ .num x)) →
      (createArcRotateCameraAnimation key value lf camera animCfg minim).keys
        = [(0, camera.get key), (lf, value)]) ∧
    (∀ (lf : ℝ) (animCfg : Value),
      (createArcRotateCameraAnimation "alpha" (.num (ToRadians 10)) lf camera350 animCfg (.bool true)).keys
        = [(0, .num (ToRadians 350)), (lf, .num (ToRadians 370))]) := by
  refine ⟨?_, ?_, ?_⟩
  · intro camera key e lf animCfg minim s hmin hkey hs
    refine ⟨ToRadians (DeltaAngle (ToDegrees s) (ToDegrees e)), ?_,
      minimized_delta_bounds s e, minimized_delta_congruent s e⟩
    simp only [createArcRotateCameraAnimation, hmin, hs, if_pos hkey, if_true]
  · intro camera key value lf animCfg minim h
    rcases h with h | ⟨h1, h2⟩ | h
    · cases value <;> simp [createArcRotateCameraAnimation, h]
    · have hk : ¬(key = "alpha" ∨ key = "beta") := by
        rintro (hc | hc) <;> [exact h1 hc; exact h2 hc]
      cases value <;> simp [createArcRotateCameraAnimation, hk]
    · cases value with
      | num x => exact absurd rfl (h x)
      | _ => simp [createArcRotateCameraAnimation]
  · intro lf animCfg
    have hs : camera350.get "alpha" = .num (ToRadians 350) := by
      simp [camera350, newArcRotateCamera, ArcRotateCamera.get, ArcRotateCamera.set,
        upsert, find?]
    simp only [createArcRotateCameraAnimation, hs]
    have hend : ToRadians 350 + ToRadians (DeltaAngle (ToDegrees (ToRadians 350))
        (ToDegrees (ToRadians 10))) = ToRadians 370 := by
      rw [ToDegrees_ToRadians, ToDegrees_ToRadians, DeltaAngle_350_10]
      unfold ToRadians
      ring
    simp [Value.truthy, hend]

/-- Claim C2 witness: the three parts applied at concrete inputs (a fresh
camera with alpha 0 and numeric target 0; the non-rotation property radius;
and the 350-to-10 degree example camera). -/
theorem claimC2_witness :
    (∃ d : ℝ, (createArcRotateCameraAnimation "alpha" (.num 0) 1 (newArcRotateCamera "c")
        Value.undef (.bool true)).keys = [(0, .num 0), (1, .num (0 + d))] ∧
      (-Real.pi < d ∧ d ≤ Real.pi) ∧ (∃ k : ℤ, d = (0 - 0) + 2 * Real.pi * k)) ∧
    ((createArcRotateCameraAnimation "radius" (.num 5) 1 (newArcRotateCamera "c")
        Value.undef (.bool true)).keys = [(0, (newArcRotateCamera "c").get "radius"), (1, .num 5)]) ∧
    ((createArcRotateCameraAnimation "alpha" (.num (ToRadians 10)) 1 camera350
        Value.undef (.bool true)).keys = [(0, .num (ToRadians 350)), (1, .num (ToRadians 370))]) := by
  refine ⟨claimC2_theorem.1 (newArcRotateCamera "c") "alpha" 0 1 Value.undef (.bool true) 0
      rfl (Or.inl rfl) ?_,
    claimC2_theorem.2.1 (newArcRotateCamera "c") "radius" (.num 5) 1 Value.undef (.bool true)
      (Or.inr (Or.inl ⟨by decide, by decide⟩)),
    claimC2_theorem.2.2 1 Value.undef⟩
  simp [newArcRotateCamera, ArcRotateCamera.get, find?]

/-! ## Extraction lemmas -/

theorem mem_keysOf_upsert {α : Type} (l : List (String × α)) (k key : String) (v : α) :
    key ∈ keysOf (upsert l k v) ↔ key = k ∨ key ∈ keysOf l := by
  induction l with
  | nil => simp [upsert, keysOf]
  | cons e t ih =>
    obtain ⟨k1, w⟩ := e
    by_cases h1 : k1 = k
    · subst h1
      by_cases h2 : key = k1 <;> simp [upsert, keysOf, h2]
    · simp [upsert, keysOf, h1] at ih ⊢
      tauto

theorem extractStep_inv (acc : ExtractedProperties) (e : String × Value)
    (h : ExtractInv acc) : ExtractInv (extractStep acc e) := by
  unfold extractStep
  split
  · exact h
  · unfold classifyInto
    obtain ⟨h1, h2, h3⟩ := h
    by_cases ht : (convStep e.1 e.2).1 = "target"
    · rw [if_pos ht]
      refine ⟨?_, h2, h3⟩
      intro key hkey
      rcases (mem_keysOf_upsert _ _ _ _).mp hkey with hk | hk
      · rw [hk, ht]
      · exact h1 key hk
    · rw [if_neg ht]
      by_cases hm : hasKey CAMERA_ANIMATION_TYPE_MAP (convStep e.1 e.2).1 = true
      · rw [if_pos hm]
        refine ⟨h1, ?_, h3⟩
        intro key hkey
        rcases (mem_keysOf_upsert _ _ _ _).mp hkey with hk | hk
        · rw [hk]
          exact ⟨ht, hm⟩
        · exact h2 key hk
      · rw [if_neg hm]
        refine ⟨h1, h2, ?_⟩
        intro key hkey
        rcases (mem_keysOf_upsert _ _ _ _).mp hkey with hk | hk
        · rw [hk]
          exact ⟨ht, by simpa using hm⟩
        · exact h3 key hk

theorem foldl_extract_inv (prop : List (String × Value)) (acc : ExtractedProperties)
    (h : ExtractInv acc) : ExtractInv (List.foldl extractStep acc prop) := by
  induction prop generalizing acc with
  | nil => exact h
  | cons e t ih => exact ih _ (extractStep_inv acc e h)

theorem extract_inv (prop : List (String × Value)) :
    ExtractInv (extractConfigProperties prop) := by
  refine foldl_extract_inv prop _ ⟨?_, ?_, ?_⟩ <;> simp [keysOf]

theorem extractStep_mono (acc : ExtractedProperties) (e : String × Value) (key : String) :
    (key ∈ keysOf acc.specialAnimatableValuesToUpdate →
      key ∈ keysOf (extractStep acc e).specialAnimatableValuesToUpdate) ∧
    (key ∈ keysOf acc.animatableValuesToUpdate →
      key ∈ keysOf (extractStep acc e).animatableValuesToUpdate) ∧
    (key ∈ keysOf acc.nonAnimatableValuesToUpdate →
      key ∈ keysOf (extractStep acc e).nonAnimatableValuesToUpdate) := by
  unfold extractStep classifyInto
  split
  · exact ⟨id, id, id⟩
  · split
    · exact ⟨fun h => (mem_keysOf_upsert _ _ _ _).mpr (Or.inr h), id, id⟩
    · split
      · exact ⟨id, fun h => (mem_keysOf_upsert _ _ _ _).mpr (Or.inr h), id⟩
      · exact ⟨id, id, fun h => (mem_keysOf_upsert _ _ _ _).mpr (Or.inr h)⟩

theorem foldl_extract_mono (t : List (String × Value)) (acc : ExtractedProperties) (key : String) :
    (key ∈ keysOf acc.specialAnimatableValuesToUpdate →
      key ∈ keysOf (List.foldl extractStep acc t).specialAnimatableValuesToUpdate) ∧
    (key ∈ keysOf acc.animatableValuesToUpdate →
      key ∈ keysOf (List.foldl extractStep acc t).animatableValuesToUpdate) ∧
    (key ∈ keysOf acc.nonAnimatableValuesToUpdate →
      key ∈ keysOf (List.foldl extractStep acc t).nonAnimatableValuesToUpdate) := by
  induction t generalizing acc with
  | nil => exact ⟨id, id, id⟩
  | cons e t2 ih =>
    refine ⟨fun h => ?_, fun h => ?_, fun h => ?_⟩ <;>
      rw [List.foldl_cons]
    · exact (ih _).1 ((extractStep_mono acc e key).1 h)
    · exact (ih _).2.1 ((extractStep_mono acc e key).2.1 h)
    · exact (ih _).2.2 ((extractStep_mono acc e key).2.2 h)

theorem foldl_extract_place (prop : List (String × Value)) (acc : ExtractedProperties)
    (k : String) (v : Value) (hmem : (k, v) ∈ prop)
    (hig : k ∉ CAMERA_PROPERTIES_TO_IGNORE_DURING_EXTRACTION) :
    ((convStep k v).1 = "target" →
      (convStep k v).1 ∈ keysOf (List.foldl extractStep acc prop).specialAnimatableValuesToUpdate) ∧
    ((convStep k v).1 ≠ "target" → hasKey CAMERA_ANIMATION_TYPE_MAP (convStep k v).1 = true →
      (convStep k v).1 ∈ keysOf (List.foldl extractStep acc prop).animatableValuesToUpdate) ∧
    ((convStep k v).1 ≠ "target" → hasKey CAMERA_ANIMATION_TYPE_MAP (convStep k v).1 = false →
      (convStep k v).1 ∈ keysOf (List.foldl extractStep acc prop).nonAnimatableValuesToUpdate) := by
  induction prop generalizing acc with
  | nil => exact absurd hmem (List.not_mem_nil _)
  | cons e t ih =>
    rcases List.mem_cons.mp hmem with he | ht
    · subst he
      rw [List.foldl_cons]
      have hstep : extractStep acc (k, v) = classifyInto acc (convStep k v) := by
        simp [extractStep, hig]
      refine ⟨fun hT => ?_, fun hT hA => ?_, fun hT hA => ?_⟩
      · refine (foldl_extract_mono t _ _).1 ?_
        rw [hstep]
        unfold classifyInto
        rw [if_pos hT]
        exact (mem_keysOf_upsert _ _ _ _).mpr (Or.inl rfl)
      · refine (foldl_extract_mono t _ _).2.1 ?_
        rw [hstep]
        unfold classifyInto
        rw [if_neg hT, if_pos hA]
        exact (mem_keysOf_upsert _ _ _ _).mpr (Or.inl rfl)
      · refine (foldl_extract_mono t _ _).2.2 ?_
        rw [hstep]
        unfold classifyInto
        rw [if_neg hT, if_neg (by simp [hA])]
        exact (mem_keysOf_upsert _ _ _ _).mpr (Or.inl rfl)
    · rw [List.foldl_cons]
      exact ih _ ht

/-! ## Claim C7: extraction partition -/

/-- Claim C7: extraction is a partition of the non-ignored configuration
entries after conversion.  Every non-ignored entry is placed, under its
converted key, in the map its converted key selects (target in special,
animation-type-map keys in animatable, everything else including unknown keys
in non-animatable), and the key sets of the three result maps are mutually
disjoint, so each key lives in exactly one mapping.  The extraction is a pure
function of the configuration entry by construction in this embedding,
matching the source method, which reads only its argument. -/
theorem claimC7_theorem :
    (∀ (prop : List (String × Value)) (k : String) (v : Value),
      (k, v) ∈ prop → k ∉ CAMERA_PROPERTIES_TO_IGNORE_DURING_EXTRACTION →
      ((convStep k v).1 = "target" →
        (convStep k v).1 ∈ keysOf (extractConfigProperties prop).specialAnimatableValuesToUpdate) ∧
      ((convStep k v).1 ≠ "target" → hasKey CAMERA_ANIMATION_TYPE_MAP (convStep k v).1 = true →
        (convStep k v).1 ∈ keysOf (extractConfigProperties prop).animatableValuesToUpdate) ∧
      ((convStep k v).1 ≠ "target" → hasKey CAMERA_ANIMATION_TYPE_MAP (convStep k v).1 = false →
        (convStep k v).1 ∈ keysOf (extractConfigProperties prop).nonAnimatableValuesToUpdate)) ∧
    (∀ (prop : List (String × Value)) (key : String),
      (key ∈ keysOf (extractConfigProperties prop).specialAnimatableValuesToUpdate →
        key ∉ keysOf (extractConfigProperties prop).animatableValuesToUpdate ∧
        key ∉ keysOf (extractConfigProperties prop).nonAnimatableValuesToUpdate) ∧
      (key ∈ keysOf (extractConfigProperties prop).animatableValuesToUpdate →
        key ∉ keysOf (extractConfigProperties prop).nonAnimatableValuesToUpdate)) := by
  constructor
  · intro prop k v hmem hig
    exact foldl_extract_place prop _ k v hmem hig
  · intro prop key
    obtain ⟨h1, h2, h3⟩ := extract_inv prop
    constructor
    · intro hs
      have ht := h1 key hs
      constructor
      · intro ha
        exact (h2 key ha).1 ht
      · intro hn
        exact (h3 key hn).1 ht
    · intro ha hn
      have hA := (h2 key ha).2
      have hN := (h3 key hn).2
      rw [hA] at hN
      exact Bool.noConfusion hN

/-- Claim C7 witness: the partition statement applied to a configuration with
a degree-suffixed animatable key, the target key and an unknown key. -/
theorem claimC7_witness :
    ((convStep "target" (.vec3 Vec3.zero)).1 ∈ keysOf (extractConfigProperties
      [("fovInDegrees", .num 90), ("target", .vec3 Vec3.zero), ("wheelPrecision", .num 3)]).specialAnimatableValuesToUpdate) ∧
    ((convStep "fovInDegrees" (.num 90)).1 ∈ keysOf (extractConfigProperties
      [("fovInDegrees", .num 90), ("target", .vec3 Vec3.zero), ("wheelPrecision", .num 3)]).animatableValuesToUpdate) ∧
    ((convStep "wheelPrecision" (.num 3)).1 ∈ keysOf (extractConfigProperties
      [("fovInDegrees", .num 90), ("target", .vec3 Vec3.zero), ("wheelPrecision", .num 3)]).nonAnimatableValuesToUpdate) := by
  refine ⟨((claimC7_theorem.1 _ "target" (.vec3 Vec3.zero) (by simp) (by decide)).1 ?_),
    ((claimC7_theorem.1 _ "fovInDegrees" (.num 90) (by simp) (by decide)).2.1 ?_ ?_),
    ((claimC7_theorem.1 _ "wheelPrecision" (.num 3) (by simp) (by decide)).2.2 ?_ ?_)⟩
  · decide
  · decide
  · decide
  · decide
  · decide

/-! ## Claim C8: degree conversion -/

/-- Claim C8, counterexample to the claim as stated: the key aInDegreesB
contains but does not end with the suffix InDegrees; the specification says
such a key keeps its key and value unchanged, yet extraction converts it,
re-keying it to a with its value turned into radians. -/
theorem claimC8_counterexample :
    (extractConfigProperties [("aInDegreesB", .num 90)]).nonAnimatableValuesToUpdate
      = [("a", .num (ToRadians 90))] ∧
    convStepClaimed "aInDegreesB" (.num 90) = ("aInDegreesB", .num 90) ∧
    ("a" : String) ≠ "aInDegreesB" := by
  refine ⟨?_, ?_, by decide⟩
  · norm_num +decide [extractConfigProperties, extractStep, classifyInto, convStep,
      strIncludes, convertDegreesToRadians, splitHead, splitFirst, Value.toRadians,
      CAMERA_PROPERTIES_TO_IGNORE_DURING_EXTRACTION, CAMERA_ANIMATION_TYPE_MAP, hasKey,
      find?, upsert, ANIMATIONTYPE_FLOAT, ANIMATIONTYPE_VECTOR3]
  · norm_num +decide [convStepClaimed]

/-- Claim C8, amended: exactly the configuration keys containing the
substring InDegrees are converted — each is re-keyed to the prefix before the
first occurrence of the substring with its numeric value converted from
degrees to radians — and the conversion happens exactly once, before
classification; every key not containing the substring keeps its key and
value unchanged. -/
theorem claimC8_theorem :
    (∀ (k : String) (x : ℝ), strIncludes k "InDegrees" = true →
      convStep k (.num x) = (splitHead k "InDegrees", .num (ToRadians x))) ∧
    (∀ (k : String) (v : Value), strIncludes k "InDegrees" = false →
      convStep k v = (k, v)) ∧
    (∀ (acc : ExtractedProperties) (entry : String × Value),
      entry.1 ∉ CAMERA_PROPERTIES_TO_IGNORE_DURING_EXTRACTION →
      extractStep acc entry = classifyInto acc (convStep entry.1 entry.2)) := by
  refine ⟨?_, ?_, ?_⟩
  · intro k x h
    simp [convStep, h, convertDegreesToRadians, Value.toRadians]
  · intro k v h
    simp [convStep, h]
  · intro acc entry h
    simp [extractStep, h]

/-- Claim C8 witness: the amended statement applied to the degree-suffixed
key alphaInDegrees, the plain key radius, and one extraction step on a
non-ignored entry. -/
theorem claimC8_witness :
    convStep "alphaInDegrees" (.num 90) = (splitHead "alphaInDegrees" "InDegrees", .num (ToRadians 90)) ∧
    convStep "radius" (.num 2) = ("radius", .num 2) ∧
    extractStep ⟨[], [], []⟩ ("radius", .num 2) = classifyInto ⟨[], [], []⟩ (convStep "radius" (.num 2)) := by
  refine ⟨claimC8_theorem.1 "alphaInDegrees" 90 (by decide),
    claimC8_theorem.2.1 "radius" (.num 2) (by decide),
    claimC8_theorem.2.2 ⟨[], [], []⟩ ("radius", .num 2) (by decide)⟩

/-! ## Scene playback-log preservation lemmas -/

theorem scene_modifyCamera (st : Camera) (n : String) (f : ArcRotateCamera → ArcRotateCamera) :
    (modifyCamera st n f).scene = st.scene := by
  unfold modifyCamera
  cases find? st.cameraMap n <;> rfl

theorem playbackLog_removeCamera (st : Camera) (n : String) :
    (removeCamera st n).scene.playbackLog = st.scene.playbackLog := by
  unfold removeCamera
  cases find? st.cameraMap n <;> rfl

theorem playbackLog_stopAnimationOn (st : Camera) (cn : String) (a : Anim) :
    (stopAnimationOn st cn a).scene.playbackLog = st.scene.playbackLog := by
  unfold stopAnimationOn
  split
  · simp [Scene.stopRunning, scene_modifyCamera]
  · rfl

theorem playbackLog_foldl_stop (l : List Anim) (st : Camera) (cn : String) :
    ((l.foldl (fun s a => stopAnimationOn s cn a) st)).scene.playbackLog =
      st.scene.playbackLog := by
  induction l generalizing st with
  | nil => rfl
  | cons a t ih => rw [List.foldl_cons, ih, playbackLog_stopAnimationOn]

theorem playbackLog_stopAndClear (st : Camera) (n : String) :
    (stopAndClearAnimations st n).scene.playbackLog = st.scene.playbackLog := by
  unfold stopAndClearAnimations
  cases find? st.cameraMap n
  · rfl
  · dsimp only
    rw [scene_modifyCamera, playbackLog_foldl_stop]

theorem playbackLog_applyAttachControl (st : Camera) (n : String)
    (prop : List (String × Value)) :
    (applyAttachControl st n prop).scene.playbackLog = st.scene.playbackLog := by
  unfold applyAttachControl
  rw [scene_modifyCamera]

theorem playbackLog_applyAutoRotationBehavior (st : Camera) (n : String)
    (prop : List (String × Value)) :
    (applyAutoRotationBehavior st n prop).scene.playbackLog = st.scene.playbackLog := by
  unfold applyAutoRotationBehavior
  dsimp only
  split
  · rw [scene_modifyCamera]
  · rfl

theorem playbackLog_applyFramingBehavior (st : Camera) (n : String)
    (prop : List (String × Value)) :
    (applyFramingBehavior st n prop).scene.playbackLog = st.scene.playbackLog := by
  unfold applyFramingBehavior
  dsimp only
  split
  · rw [scene_modifyCamera]
  · rfl

theorem playbackLog_buildCameraAnimations (st : Camera) (n : String)
    (ext : ExtractedProperties) (cfgA minim : Value) (lf : ℝ) :
    (buildCameraAnimations st n ext cfgA minim lf).scene.playbackLog =
      st.scene.playbackLog := by
  unfold buildCameraAnimations
  rw [scene_modifyCamera]

theorem playbackLog_saveAndClearLimits (st : Camera) (n : String) :
    (saveAndClearLimits st n).1.scene.playbackLog = st.scene.playbackLog := by
  unfold saveAndClearLimits
  cases find? st.cameraMap n
  · rfl
  · dsimp only
    rw [scene_modifyCamera]

theorem playbackLog_removeOldObserver (st : Camera) (n : String) :
    (removeOldObserver st n).scene.playbackLog = st.scene.playbackLog := by
  unfold removeOldObserver
  cases find? st.firstCameraInteractionObserverMap n
  · rfl
  · rw [scene_modifyCamera]

theorem playbackLog_assignFinalKeyframes (st : Camera) (n : String) :
    (assignFinalKeyframes st n).scene.playbackLog = st.scene.playbackLog := by
  unfold assignFinalKeyframes
  rw [scene_modifyCamera]

theorem playbackLog_registerObserver (st : Camera) (n : String) :
    (registerObserver st n).scene.playbackLog = st.scene.playbackLog := by
  unfold registerObserver
  dsimp only
  rw [scene_modifyCamera]

theorem playbackLog_postAnimationOps (st : Camera) (p : PendingUpdate) :
    (postAnimationOps st p).scene.playbackLog = st.scene.playbackLog := by
  unfold postAnimationOps
  split
  · dsimp only
    split
    · rw [playbackLog_registerObserver, scene_modifyCamera, scene_modifyCamera]
    · rw [scene_modifyCamera, scene_modifyCamera]
  · rfl

theorem playbackLog_prePhaseA (st : Camera) (prop : List (String × Value)) (n : String) :
    (prePhaseA st prop n).1.scene.playbackLog = st.scene.playbackLog := by
  unfold prePhaseA
  dsimp only
  rw [playbackLog_stopAndClear]
  dsimp only
  rw [playbackLog_applyFramingBehavior, playbackLog_applyAutoRotationBehavior,
    playbackLog_applyAttachControl]
  by_cases hk : hasKey st.cameraMap n = true
  · rw [if_pos hk]
  · rw [if_neg hk]
    rfl

theorem playbackLog_prePhase (st : Camera) (prop : List (String × Value)) (n : String) :
    (prePhaseCommon st prop n).1.scene.playbackLog = st.scene.playbackLog := by
  unfold prePhaseCommon
  dsimp only
  rw [playbackLog_removeOldObserver, playbackLog_saveAndClearLimits,
    playbackLog_buildCameraAnimations, playbackLog_prePhaseA]

/-! ## Configuration object mutation lemmas -/

theorem durationOf_upsert_enable (prop : List (String × Value)) (v : Value) :
    durationOf (upsert prop "enable" v) = durationOf prop := by
  unfold durationOf
  rw [find?_upsert, if_neg (by decide : ¬("enable" = "animationDuration"))]

/-- The caller-owned property object returned by an un-overlapped update: the
enable field is overwritten with its defaulted value, and when the update was
enabled with a positive duration the duration is reset to 0 afterwards. -/
theorem propOut_run (st : Camera) (prop : List (String × Value)) (n : String) :
    (updateArcRotateCameraRun st prop n).2 =
      (if durationOf prop > 0 ∧ (nullishD (find? prop "enable") (.bool true)).truthy = true
       then upsert (upsert prop "enable" (nullishD (find? prop "enable") (.bool true)))
              "animationDuration" (.num 0)
       else upsert prop "enable" (nullishD (find? prop "enable") (.bool true))) := by
  unfold updateArcRotateCameraRun updateArcRotateCameraPhase1 updateArcRotateCameraPhase2
  dsimp only
  by_cases hen : (nullishD (find? prop "enable") (.bool true)).truthy = true
  · by_cases hd : durationOf prop > 0 <;>
      simp [hen, hd, durationOf_upsert_enable]
  · rw [Bool.not_eq_true] at hen
    simp [hen]

theorem playbackLog_run_of_nonpos (st : Camera) (prop : List (String × Value))
    (n : String) (h : ¬durationOf prop > 0) :
    (updateArcRotateCameraRun st prop n).1.scene.playbackLog = st.scene.playbackLog := by
  unfold updateArcRotateCameraRun updateArcRotateCameraPhase1
  dsimp only
  by_cases hen : (nullishD (find? prop "enable") (.bool true)).truthy = true
  · rw [durationOf_upsert_enable] at *
    simp only [hen, Bool.not_true, Bool.false_eq_true, if_false, durationOf_upsert_enable,
      if_neg h]
    rw [playbackLog_postAnimationOps, playbackLog_assignFinalKeyframes, playbackLog_prePhase]
  · simp only [Bool.not_eq_true] at hen
    simp only [hen, Bool.not_false, if_true]
    exact playbackLog_removeCamera st n

/-! ## Claim C9: empty configuration and unconditional default removal -/

theorem processEntriesGo_skip (cfg : List (String × List (String × Value)))
    (st : Camera) (acc : List (String × List (String × Value)))
    (h : ∀ e ∈ cfg, isArcRotateType (find? e.2 "type") = false) :
    processEntriesGo st acc cfg = (st, acc ++ cfg) := by
  induction cfg generalizing st acc with
  | nil => simp [processEntriesGo]
  | cons e t ih =>
    have he := h e (List.mem_cons_self e t)
    have hpe : processEntry st e = (st, e) := by
      simp [processEntry, he]
    rw [processEntriesGo, hpe]
    rw [ih st (acc ++ [e]) (fun e2 he2 => h e2 (List.mem_cons_of_mem e he2))]
    simp

/-- Claim C9: updateCameras with an empty configuration returns at once with
the state and the configuration unchanged; with any non-empty configuration
the default camera is removed first and the per-entry processing runs on the
state after that removal — in particular, when every entry has an unsupported
type, the whole call equals exactly the default camera removal, which deletes
the default camera from the camera map and disposes it in the scene. -/
theorem claimC9_theorem (st : Camera) (cfg : List (String × List (String × Value))) :
    (updateCameras st [] = (st, [])) ∧
    (cfg ≠ [] → updateCameras st cfg = processEntries (removeCamera st "DefaultCamera") cfg) ∧
    (cfg ≠ [] → (∀ e ∈ cfg, isArcRotateType (find? e.2 "type") = false) →
      updateCameras st cfg = (removeCamera st "DefaultCamera", cfg)) ∧
    (hasKey st.cameraMap "DefaultCamera" = true → NoDupKeys st.cameraMap →
      find? (removeCamera st "DefaultCamera").cameraMap "DefaultCamera" = none ∧
      "DefaultCamera" ∈ (removeCamera st "DefaultCamera").scene.disposedCameras) := by
  refine ⟨rfl, ?_, ?_, ?_⟩
  · intro hne
    simp [updateCameras, List.isEmpty_iff, hne]
  · intro hne hskip
    simp only [updateCameras, List.isEmpty_iff, hne, if_neg hne]
    rw [processEntries, processEntriesGo_skip cfg _ [] hskip]
    simp
  · intro hpre hnd
    unfold removeCamera
    obtain ⟨c, hc⟩ := Option.isSome_iff_exists.mp (by simpa [hasKey] using hpre)
    rw [hc]
    constructor
    · rw [find?_eraseKey _ _ _ hnd, if_pos rfl]
    · simp [Scene.disposeCamera, Scene.removeCam]

/-- Claim C9 witness: the theorem applied to the fresh configurator and a
one-entry configuration of unsupported type. -/
theorem claimC9_witness :
    updateCameras (initialCamera oracleU) [("X", [("type", .str "freeCamera")])] =
      (removeCamera (initialCamera oracleU) "DefaultCamera", [("X", [("type", .str "freeCamera")])]) ∧
    find? (removeCamera (initialCamera oracleU) "DefaultCamera").cameraMap "DefaultCamera" = none ∧
    "DefaultCamera" ∈ (removeCamera (initialCamera oracleU) "DefaultCamera").scene.disposedCameras := by
  have h := claimC9_theorem (initialCamera oracleU) [("X", [("type", .str "freeCamera")])]
  refine ⟨h.2.2.1 (by simp) ?_, ?_, ?_⟩
  · intro e he
    rcases List.mem_singleton.mp he with rfl
    simp [isArcRotateType, find?]
  · exact (h.2.2.2 (by simp [initialCamera, Camera.new, hasKey, find?])
      (by simp [initialCamera, Camera.new, NoDupKeys])).1
  · exact (h.2.2.2 (by simp [initialCamera, Camera.new, hasKey, find?])
      (by simp [initialCamera, Camera.new, NoDupKeys])).2

/-! ## Claim C10: mutation of the caller-owned configuration -/

theorem nullishD_some_of_not_nullish (v d : Value) (h : v.isNullish = false) :
    nullishD (some v) d = v := by
  simp [nullishD, h]

theorem nullishD_boolTrue_not_nullish (o : Option Value) :
    (nullishD o (Value.bool true)).isNullish = false := by
  cases o with
  | none => rfl
  | some v => cases v <;> simp [nullishD, Value.isNullish]

theorem playbackLog_run_of_disabled (st : Camera) (prop : List (String × Value))
    (n : String) (h : (nullishD (find? prop "enable") (.bool true)).truthy = false) :
    (updateArcRotateCameraRun st prop n).1.scene.playbackLog = st.scene.playbackLog := by
  unfold updateArcRotateCameraRun updateArcRotateCameraPhase1
  dsimp only
  simp only [h, Bool.not_false, if_true]
  exact playbackLog_removeCamera st n

/-- Claim C10: a processed arcRotateCamera entry has its enable field
overwritten with its defaulted value on the caller-owned object; when the
entry was enabled with a positive animation duration, its animationDuration
field is reset to 0 after the awaited playback; consequently, running the
same (mutated) object through a second un-overlapped update begins no new
playback. -/
theorem claimC10_theorem (st : Camera) (prop : List (String × Value)) (cameraName : String) :
    (find? (updateArcRotateCameraRun st prop cameraName).2 "enable" =
      some (nullishD (find? prop "enable") (.bool true))) ∧
    ((nullishD (find? prop "enable") (.bool true)).truthy = true → durationOf prop > 0 →
      find? (updateArcRotateCameraRun st prop cameraName).2 "animationDuration" = some (.num 0)) ∧
    ((updateArcRotateCameraRun (updateArcRotateCameraRun st prop cameraName).1
        (updateArcRotateCameraRun st prop cameraName).2 cameraName).1.scene.playbackLog =
      (updateArcRotateCameraRun st prop cameraName).1.scene.playbackLog) := by
  refine ⟨?_, ?_, ?_⟩
  · rw [propOut_run]
    split
    · rw [find?_upsert, if_neg (by decide : ¬("animationDuration" = "enable")),
        find?_upsert, if_pos rfl]
    · rw [find?_upsert, if_pos rfl]
  · intro hen hd
    rw [propOut_run, if_pos ⟨hd, hen⟩, find?_upsert, if_pos rfl]
  · rw [propOut_run]
    by_cases hcond : durationOf prop > 0 ∧
        (nullishD (find? prop "enable") (.bool true)).truthy = true
    · rw [if_pos hcond]
      apply playbackLog_run_of_nonpos
      unfold durationOf
      rw [find?_upsert, if_pos rfl]
      norm_num [nullishD, Value.isNullish, Value.asNumD]
    · rw [if_neg hcond]
      by_cases hen : (nullishD (find? prop "enable") (.bool true)).truthy = true
      · apply playbackLog_run_of_nonpos
        rw [durationOf_upsert_enable]
        intro hd
        exact hcond ⟨hd, hen⟩
      · apply playbackLog_run_of_disabled
        rw [Bool.not_eq_true] at hen
        rw [find?_upsert, if_pos rfl,
          nullishD_some_of_not_nullish _ _ (nullishD_boolTrue_not_nullish _)]
        exact hen

/-- Claim C10 witness: the theorem applied to a fresh configurator and an
enabled arc-rotate entry with duration 5. -/
theorem claimC10_witness :
    (find? (updateArcRotateCameraRun (initialCamera oracleU)
        [("type", Value.str "arcRotateCamera"), ("animationDuration", Value.num 5)] "A").2 "enable" =
      some (nullishD (find? [("type", Value.str "arcRotateCamera"),
        ("animationDuration", Value.num 5)] "enable") (.bool true))) ∧
    (find? (updateArcRotateCameraRun (initialCamera oracleU)
        [("type", Value.str "arcRotateCamera"), ("animationDuration", Value.num 5)] "A").2
      "animationDuration" = some (.num 0)) := by
  have h := claimC10_theorem (initialCamera oracleU)
    [("type", Value.str "arcRotateCamera"), ("animationDuration", Value.num 5)] "A"
  refine ⟨h.1, h.2.1 ?_ ?_⟩
  · norm_num +decide [find?, nullishD, Value.truthy, Value.isNullish]
  · norm_num +decide [durationOf, find?, nullishD, Value.isNullish, Value.asNumD]

/-! ## Claim C5: state purge on removal and dispose -/

theorem observerMap_modifyCamera (st : Camera) (n : String)
    (f : ArcRotateCamera → ArcRotateCamera) :
    (modifyCamera st n f).firstCameraInteractionObserverMap =
      st.firstCameraInteractionObserverMap := by
  unfold modifyCamera
  cases find? st.cameraMap n <;> rfl

theorem observerMap_stopAnimationOn (st : Camera) (cn : String) (a : Anim) :
    (stopAnimationOn st cn a).firstCameraInteractionObserverMap =
      st.firstCameraInteractionObserverMap := by
  unfold stopAnimationOn
  split
  · simp [observerMap_modifyCamera]
  · rfl

theorem observerMap_foldl_stop (l : List Anim) (st : Camera) (cn : String) :
    ((l.foldl (fun s a => stopAnimationOn s cn a) st)).firstCameraInteractionObserverMap =
      st.firstCameraInteractionObserverMap := by
  induction l generalizing st with
  | nil => rfl
  | cons a t ih => rw [List.foldl_cons, ih, observerMap_stopAnimationOn]

theorem observerMap_disposeCameraEntry (s : Camera) (e : String × ArcRotateCamera) :
    (disposeCameraEntry s e).firstCameraInteractionObserverMap =
      s.firstCameraInteractionObserverMap := by
  unfold disposeCameraEntry
  dsimp only
  rw [observerMap_modifyCamera, observerMap_foldl_stop]

theorem observerMap_foldl_disposeEntry (l : List (String × ArcRotateCamera)) (st : Camera) :
    (l.foldl disposeCameraEntry st).firstCameraInteractionObserverMap =
      st.firstCameraInteractionObserverMap := by
  induction l generalizing st with
  | nil => rfl
  | cons e t ih => rw [List.foldl_cons, ih, observerMap_disposeCameraEntry]

theorem observerMap_removeCamera (st : Camera) (n : String) :
    (removeCamera st n).firstCameraInteractionObserverMap =
      st.firstCameraInteractionObserverMap := by
  unfold removeCamera
  cases find? st.cameraMap n <;> rfl

theorem run_disabled (st : Camera) (prop : List (String × Value)) (name : String)
    (h : (nullishD (find? prop "enable") (.bool true)).truthy = false) :
    (updateArcRotateCameraRun st prop name).1 = removeCamera st name := by
  unfold updateArcRotateCameraRun updateArcRotateCameraPhase1
  dsimp only
  simp [h]

/-- Claim C5, counterexample to the claim as stated: create and configure a
camera A (which registers a first-interaction observer), then update it with
enable false.  The camera map entry is gone, but the first-interaction
observer map still holds the entry of A — that map is never purged. -/
theorem claimC5_counterexample :
    (find? ((updateArcRotateCameraRun
        ((updateArcRotateCameraRun (removeCamera (initialCamera oracleU) "DefaultCamera")
          [("type", .str "arcRotateCamera")] "A").1)
        [("type", .str "arcRotateCamera"), ("enable", .bool false)] "A").1).firstCameraInteractionObserverMap "A" = some 0) ∧
    (find? ((updateArcRotateCameraRun
        ((updateArcRotateCameraRun (removeCamera (initialCamera oracleU) "DefaultCamera")
          [("type", .str "arcRotateCamera")] "A").1)
        [("type", .str "arcRotateCamera"), ("enable", .bool false)] "A").1).cameraMap "A" = none) := by
  constructor <;>
  norm_num +decide [updateCameras, processEntries, processEntriesGo, processEntry, isArcRotateType,
      updateArcRotateCameraRun, updateArcRotateCameraPhase1, updateArcRotateCameraPhase2,
      prePhaseCommon, applyPlaybackCompletion, postAnimationOps, registerObserver,
      assignFinalKeyframes, mergeEntries, durationOf, initialCamera, Camera.new, Scene.empty,
      removeCamera, find?, eraseKey, upsert, hasKey, Scene.removeCam, Scene.disposeCamera,
      nullishD, Value.isNullish, Value.truthy, Value.isUndef, Value.asNumD, createCamera,
      newArcRotateCamera, applyAttachControl, applyAutoRotationBehavior, applyFramingBehavior,
      modifyCamera, Value.getField, stopAndClearAnimations, stopAnimationOn, Scene.isRunning,
      Scene.stopRunning, extractConfigProperties, extractStep, classifyInto, convStep,
      CAMERA_PROPERTIES_TO_IGNORE_DURING_EXTRACTION, strIncludes, convertDegreesToRadians,
      splitHead, splitFirst, Value.toRadians, CAMERA_ANIMATION_TYPE_MAP, ANIMATIONTYPE_FLOAT,
      ANIMATIONTYPE_VECTOR3, truthyD, DEFAULT_CAMERA_ANIMATION_CONFIG, lastFrameOf,
      buildCameraAnimations, createArcRotateCameraAnimation, ArcRotateCamera.get,
      ArcRotateCamera.set, saveAndClearLimits, ARC_ROTATE_CAMERA_LIMIT_PROPERTIES,
      removeOldObserver, animsOf, beginAnimationOn, UpdateOutcome.state, UpdateOutcome.propOut,
      getCamProp, resumeAfter, List.getLast?]

/-- Claim C5, amended: after a per-camera update whose entry is disabled, the
camera map, generation-counter map, first-interaction flag map and
view-matrix snapshot map contain no entry for the name, the camera is gone
from the scene registry and was disposed — but the first-interaction observer
map is left untouched (its stale entry survives); likewise dispose() empties
those four maps and leaves the observer map untouched. -/
theorem claimC5_theorem (st : Camera) (prop : List (String × Value)) (name : String)
    (hdis : (nullishD (find? prop "enable") (.bool true)).truthy = false)
    (hp : hasKey st.cameraMap name = true)
    (hnd1 : NoDupKeys st.cameraMap) (hnd2 : NoDupKeys st.latestUpdateIndexMap)
    (hnd3 : NoDupKeys st.firstCameraInteractionMap)
    (hnd4 : NoDupKeys st.cameraViewMatrixMap)
    (hsc : st.scene.cameras.Nodup) :
    (find? (updateArcRotateCameraRun st prop name).1.cameraMap name = none ∧
     find? (updateArcRotateCameraRun st prop name).1.latestUpdateIndexMap name = none ∧
     find? (updateArcRotateCameraRun st prop name).1.firstCameraInteractionMap name = none ∧
     find? (updateArcRotateCameraRun st prop name).1.cameraViewMatrixMap name = none ∧
     name ∉ (updateArcRotateCameraRun st prop name).1.scene.cameras ∧
     name ∈ (updateArcRotateCameraRun st prop name).1.scene.disposedCameras ∧
     (updateArcRotateCameraRun st prop name).1.firstCameraInteractionObserverMap =
       st.firstCameraInteractionObserverMap) ∧
    ((Camera.dispose st).cameraMap = [] ∧
     (Camera.dispose st).latestUpdateIndexMap = [] ∧
     (Camera.dispose st).firstCameraInteractionMap = [] ∧
     (Camera.dispose st).cameraViewMatrixMap = [] ∧
     (Camera.dispose st).firstCameraInteractionObserverMap =
       st.firstCameraInteractionObserverMap) := by
  constructor
  · rw [run_disabled st prop name hdis]
    unfold removeCamera
    obtain ⟨c, hc⟩ := Option.isSome_iff_exists.mp (by simpa [hasKey] using hp)
    rw [hc]
    refine ⟨?_, ?_, ?_, ?_, ?_, ?_, rfl⟩
    · rw [find?_eraseKey _ _ _ hnd1, if_pos rfl]
    · rw [find?_eraseKey _ _ _ hnd2, if_pos rfl]
    · rw [find?_eraseKey _ _ _ hnd3, if_pos rfl]
    · rw [find?_eraseKey _ _ _ hnd4, if_pos rfl]
    · simp only [Scene.removeCam, Scene.disposeCamera]
      intro hmem
      have hmem2 := List.mem_of_mem_erase hmem
      exact absurd ((List.Nodup.mem_erase_iff hsc).mp hmem2).1 (by simp)
    · simp [Scene.removeCam, Scene.disposeCamera]
  · unfold Camera.dispose
    dsimp only
    exact ⟨rfl, rfl, rfl, rfl, observerMap_foldl_disposeEntry st.cameraMap st⟩

/-- Claim C5 witness: the amended theorem applied to the fresh configurator,
removing the present default camera with an explicitly disabled entry. -/
theorem claimC5_witness :
    find? (updateArcRotateCameraRun (initialCamera oracleU) [("enable", .bool false)]
        "DefaultCamera").1.cameraMap "DefaultCamera" = none ∧
    "DefaultCamera" ∈ (updateArcRotateCameraRun (initialCamera oracleU)
        [("enable", .bool false)] "DefaultCamera").1.scene.disposedCameras := by
  have h := claimC5_theorem (initialCamera oracleU) [("enable", .bool false)] "DefaultCamera"
    (by norm_num +decide [find?, nullishD, Value.isNullish, Value.truthy])
    (by norm_num +decide [initialCamera, Camera.new, hasKey, find?])
    (by simp [initialCamera, Camera.new, NoDupKeys])
    (by simp [initialCamera, Camera.new, NoDupKeys])
    (by simp [initialCamera, Camera.new, NoDupKeys])
    (by simp [initialCamera, Camera.new, NoDupKeys])
    (by simp [initialCamera, Camera.new, Scene.empty])
  exact ⟨h.1.1, h.1.2.2.2.2.2.1⟩

/-! ## Camera property write lemmas -/

theorem get_set_self (c : ArcRotateCamera) (k : String) (v : Value) :
    (c.set k v).get k = v := by
  simp [ArcRotateCamera.get, ArcRotateCamera.set, find?_upsert]

theorem get_set_ne (c : ArcRotateCamera) (k k2 : String) (v : Value) (h : k ≠ k2) :
    (c.set k v).get k2 = c.get k2 := by
  simp [ArcRotateCamera.get, ArcRotateCamera.set, find?_upsert, h]

theorem get_clearFold_notmem (l : List String) (k : String) :
    k ∉ l → ∀ c : ArcRotateCamera,
    (l.foldl (fun c p => c.set p Value.null) c).get k = c.get k := by
  induction l with
  | nil => intro _ c; rfl
  | cons p t ih =>
    intro h c
    have h1 : k ∉ t := fun hm => h (List.mem_cons_of_mem p hm)
    have h2 : p ≠ k := fun hc => h (by rw [← hc]; exact List.mem_cons_self p t)
    rw [List.foldl_cons, ih h1, get_set_ne c p k Value.null h2]

theorem get_assignFold_notmem (anims : List Anim) (k : String) :
    k ∉ anims.map Anim.targetProperty → ∀ c : ArcRotateCamera,
    (anims.foldl (fun cam a =>
      cam.set a.targetProperty ((a.keys.getLast?.map Prod.snd).getD .undef)) c).get k =
    c.get k := by
  induction anims with
  | nil => intro _ c; rfl
  | cons a t ih =>
    intro h c
    have h1 : k ∉ t.map Anim.targetProperty := fun hm => h (by simp at hm ⊢; tauto)
    have h2 : a.targetProperty ≠ k := fun hc => h (by rw [← hc]; simp)
    rw [List.foldl_cons, ih h1, get_set_ne _ _ _ _ h2]

theorem get_assignFold_mem (anims : List Anim) (a : Anim) :
    (anims.map Anim.targetProperty).Nodup → a ∈ anims → ∀ c : ArcRotateCamera,
    (anims.foldl (fun cam a =>
      cam.set a.targetProperty ((a.keys.getLast?.map Prod.snd).getD .undef)) c).get
        a.targetProperty =
    ((a.keys.getLast?.map Prod.snd).getD .undef) := by
  induction anims with
  | nil => intro _ ha; exact absurd ha (List.not_mem_nil a)
  | cons b t ih =>
    intro hnd ha c
    rcases List.mem_cons.mp ha with hb | ht
    · subst hb
      rw [List.foldl_cons]
      have hnm : a.targetProperty ∉ t.map Anim.targetProperty :=
        (List.nodup_cons.mp hnd).1
      rw [get_assignFold_notmem t _ hnm, get_set_self]
    · rw [List.foldl_cons]
      exact ih (List.nodup_cons.mp hnd).2 ht _

theorem get_skipUndefFold_notmem (l : List (String × Value)) (k : String) :
    k ∉ keysOf l → ∀ c : ArcRotateCamera,
    (l.foldl (fun cam kv => if kv.2.isUndef = true then cam else cam.set kv.1 kv.2) c).get k =
      c.get k := by
  induction l with
  | nil => intro _ c; rfl
  | cons kv t ih =>
    intro h c
    have h1 : k ∉ keysOf t := fun hm => h (by simp [keysOf] at hm ⊢; tauto)
    have h2 : kv.1 ≠ k := fun hc => h (by rw [← hc]; simp [keysOf])
    rw [List.foldl_cons, ih h1]
    split
    · rfl
    · exact get_set_ne _ _ _ _ h2

theorem get_skipUndefFold_mem (l : List (String × Value)) (k : String) (v : Value) :
    NoDupKeys l → find? l k = some v → v.isUndef = false → ∀ c : ArcRotateCamera,
    (l.foldl (fun cam kv => if kv.2.isUndef = true then cam else cam.set kv.1 kv.2) c).get k =
      v := by
  induction l with
  | nil =>
    intro _ hf
    exact absurd hf (by simp [find?])
  | cons kv t ih =>
    intro hnd hf hv c
    obtain ⟨k1, v1⟩ := kv
    have h0 : (k1 :: t.map Prod.fst).Nodup := by simpa [NoDupKeys] using hnd
    by_cases h1 : k1 = k
    · subst h1
      have hv1 : v1 = v := by simpa [find?] using hf
      subst hv1
      rw [List.foldl_cons]
      have hnm : k1 ∉ keysOf t := (List.nodup_cons.mp h0).1
      rw [get_skipUndefFold_notmem t _ hnm]
      simp only [hv, Bool.false_eq_true, if_false]
      exact get_set_self c k1 v1
    · rw [List.foldl_cons]
      have hf2 : find? t k = some v := by simpa [find?, h1] using hf
      exact ih (List.nodup_cons.mp h0).2 hf2 hv _

theorem find?_isSome_mem {α : Type} (l : List (String × α)) (k : String) (v : α)
    (h : find? l k = some v) : k ∈ keysOf l := by
  induction l with
  | nil => exact absurd h (by simp [find?])
  | cons e t ih =>
    obtain ⟨k1, w⟩ := e
    by_cases h1 : k1 = k
    · simp [keysOf, h1]
    · have := ih (by simpa [find?, h1] using h)
      simp [keysOf] at this ⊢
      tauto

theorem NoDupKeys_upsert {α : Type} (l : List (String × α)) (k : String) (v : α)
    (h : NoDupKeys l) : NoDupKeys (upsert l k v) := by
  induction l with
  | nil => simp [upsert, NoDupKeys]
  | cons e t ih =>
    obtain ⟨k1, w⟩ := e
    have h0 : (k1 :: t.map Prod.fst).Nodup := by simpa [NoDupKeys] using h
    by_cases h1 : k1 = k
    · subst h1
      simpa [upsert, NoDupKeys] using h0
    · have hh := List.nodup_cons.mp h0
      have ih2 := ih hh.2
      have : k1 ∉ (upsert t k v).map Prod.fst := by
        intro hm
        rcases (mem_keysOf_upsert t k k1 v).mp hm with hc | hc
        · exact h1 hc
        · exact hh.1 hc
      simpa [upsert, NoDupKeys, h1] using And.intro this ih2

theorem NoDupKeys_foldl_upsert (l : List (String × Value))
    (acc : List (String × Value)) (h : NoDupKeys acc) :
    NoDupKeys (l.foldl (fun a kv => upsert a kv.1 kv.2) acc) := by
  induction l generalizing acc with
  | nil => exact h
  | cons kv t ih => exact ih _ (NoDupKeys_upsert acc kv.1 kv.2 h)

theorem NoDupKeys_mergeEntries (old na : List (String × Value)) :
    NoDupKeys (mergeEntries old na) := by
  unfold mergeEntries
  exact NoDupKeys_foldl_upsert na _
    (NoDupKeys_foldl_upsert old [] (by simp [NoDupKeys]))

theorem find?_foldl_upsert_notmem (l acc : List (String × Value)) (k : String)
    (h : k ∉ keysOf l) :
    find? (l.foldl (fun a kv => upsert a kv.1 kv.2) acc) k = find? acc k := by
  induction l generalizing acc with
  | nil => rfl
  | cons kv t ih =>
    rw [List.foldl_cons, ih _ (fun hm => h (by simp [keysOf, hm]; tauto))]
    rw [find?_upsert, if_neg (fun hc => h (by simp [keysOf, hc]))]

theorem find?_mergeEntries_right (old na : List (String × Value)) (k : String) (v : Value)
    (hnd : NoDupKeys na) (hf : find? na k = some v) :
    find? (mergeEntries old na) k = some v := by
  unfold mergeEntries
  generalize old.foldl (fun a kv => upsert a kv.1 kv.2) [] = base
  induction na generalizing base with
  | nil => exact absurd hf (by simp [find?])
  | cons kv t ih =>
    obtain ⟨k1, v1⟩ := kv
    have h0 : (k1 :: t.map Prod.fst).Nodup := by simpa [NoDupKeys] using hnd
    by_cases h1 : k1 = k
    · subst h1
      have hv1 : v1 = v := by simpa [find?] using hf
      subst hv1
      rw [List.foldl_cons, find?_foldl_upsert_notmem t _ _ (List.nodup_cons.mp h0).1]
      rw [find?_upsert, if_pos rfl]
    · rw [List.foldl_cons]
      exact ih ((List.nodup_cons.mp h0).2) (by simpa [find?, h1] using hf) _

theorem mem_keysOf_foldl_upsert (l acc : List (String × Value)) (key : String)
    (h : key ∈ keysOf (l.foldl (fun a kv => upsert a kv.1 kv.2) acc)) :
    key ∈ keysOf acc ∨ key ∈ keysOf l := by
  induction l generalizing acc with
  | nil => exact Or.inl h
  | cons kv t ih =>
    rw [List.foldl_cons] at h
    rcases ih _ h with hc | hc
    · rcases (mem_keysOf_upsert acc kv.1 key kv.2).mp hc with hc2 | hc2
      · right
        simp [keysOf, hc2]
      · exact Or.inl hc2
    · right
      simp [keysOf] at hc ⊢
      tauto

theorem mem_keysOf_mergeEntries (old na : List (String × Value)) (key : String)
    (h : key ∈ keysOf (mergeEntries old na)) :
    key ∈ keysOf old ∨ key ∈ keysOf na := by
  unfold mergeEntries at h
  rcases mem_keysOf_foldl_upsert na _ key h with hc | hc
  · rcases mem_keysOf_foldl_upsert old [] key hc with hc2 | hc2
    · exact absurd hc2 (by simp [keysOf])
    · exact Or.inl hc2
  · exact Or.inr hc

theorem createAnim_keys_of_flag_false (k : String) (v : Value) (lf : ℝ)
    (c : ArcRotateCamera) (cfg minim : Value) (h : minim.truthy = false) :
    (createArcRotateCameraAnimation k v lf c cfg minim).keys = [(0, c.get k), (lf, v)] := by
  simp [createArcRotateCameraAnimation, h]

theorem createAnim_targetProperty (k : String) (v : Value) (lf : ℝ)
    (c : ArcRotateCamera) (cfg minim : Value) :
    (createArcRotateCameraAnimation k v lf c cfg minim).targetProperty = k := rfl

/-! ## Camera state step lemmas: presence, index map, property reads -/

theorem find?_modifyCamera_self (st : Camera) (n : String)
    (f : ArcRotateCamera → ArcRotateCamera) (c : ArcRotateCamera)
    (hc : find? st.cameraMap n = some c) :
    find? (modifyCamera st n f).cameraMap n = some (f c) := by
  simp [modifyCamera, hc, find?_upsert]

theorem gcp_some (st : Camera) (n : String) (c : ArcRotateCamera) (k : String)
    (hc : find? st.cameraMap n = some c) : getCamProp st n k = c.get k := by
  simp [getCamProp, hc]

theorem gcp_modify_some (st : Camera) (n : String)
    (f : ArcRotateCamera → ArcRotateCamera) (c : ArcRotateCamera) (k : String)
    (hc : find? st.cameraMap n = some c) :
    getCamProp (modifyCamera st n f) n k = (f c).get k := by
  simp [getCamProp, modifyCamera, hc, find?_upsert]

theorem gcp_modify_props_preserve (st : Camera) (n m : String)
    (f : ArcRotateCamera → ArcRotateCamera) (k : String)
    (hf : ∀ c, (f c).props = c.props) :
    getCamProp (modifyCamera st n f) m k = getCamProp st m k := by
  by_cases hnm : n = m
  · subst hnm
    cases hc : find? st.cameraMap n <;>
      simp [getCamProp, modifyCamera, hc, find?_upsert, ArcRotateCamera.get, hf]
  · cases hc : find? st.cameraMap n <;>
      simp [getCamProp, modifyCamera, hc, find?_upsert, hnm]

theorem gcp_registerObserver (st : Camera) (n m k : String) :
    getCamProp (registerObserver st n) m k = getCamProp st m k := by
  unfold registerObserver
  dsimp only
  show getCamProp (modifyCamera st n _) m k = getCamProp st m k
  exact gcp_modify_props_preserve st n m _ k (fun _ => rfl)

theorem hasKey_modifyCamera (st : Camera) (n : String)
    (f : ArcRotateCamera → ArcRotateCamera) (m : String) :
    hasKey (modifyCamera st n f).cameraMap m = hasKey st.cameraMap m := by
  unfold modifyCamera
  cases hc : find? st.cameraMap n
  · rfl
  · by_cases hnm : n = m
    · subst hnm
      simp [hasKey, find?_upsert, hc]
    · simp [hasKey, find?_upsert, hnm]

theorem hasKey_stopAnimationOn (st : Camera) (cn : String) (a : Anim) (m : String) :
    hasKey (stopAnimationOn st cn a).cameraMap m = hasKey st.cameraMap m := by
  unfold stopAnimationOn
  split
  · simp [hasKey_modifyCamera]
  · rfl

theorem hasKey_foldl_stop (l : List Anim) (st : Camera) (cn m : String) :
    hasKey ((l.foldl (fun s a => stopAnimationOn s cn a) st)).cameraMap m =
      hasKey st.cameraMap m := by
  induction l generalizing st with
  | nil => rfl
  | cons a t ih => rw [List.foldl_cons, ih, hasKey_stopAnimationOn]

theorem hasKey_stopAndClear (st : Camera) (n m : String) :
    hasKey (stopAndClearAnimations st n).cameraMap m = hasKey st.cameraMap m := by
  unfold stopAndClearAnimations
  cases find? st.cameraMap n
  · rfl
  · dsimp only
    rw [hasKey_modifyCamera, hasKey_foldl_stop]

theorem hasKey_applyAttachControl (st : Camera) (n : String)
    (prop : List (String × Value)) (m : String) :
    hasKey (applyAttachControl st n prop).cameraMap m = hasKey st.cameraMap m := by
  unfold applyAttachControl
  rw [hasKey_modifyCamera]

theorem hasKey_applyAutoRotationBehavior (st : Camera) (n : String)
    (prop : List (String × Value)) (m : String) :
    hasKey (applyAutoRotationBehavior st n prop).cameraMap m = hasKey st.cameraMap m := by
  unfold applyAutoRotationBehavior
  dsimp only
  split
  · rw [hasKey_modifyCamera]
  · rfl

theorem hasKey_applyFramingBehavior (st : Camera) (n : String)
    (prop : List (String × Value)) (m : String) :
    hasKey (applyFramingBehavior st n prop).cameraMap m = hasKey st.cameraMap m := by
  unfold applyFramingBehavior
  dsimp only
  split
  · rw [hasKey_modifyCamera]
  · rfl

theorem hasKey_buildCameraAnimations (st : Camera) (n : String)
    (ext : ExtractedProperties) (cfgA minim : Value) (lf : ℝ) (m : String) :
    hasKey (buildCameraAnimations st n ext cfgA minim lf).cameraMap m =
      hasKey st.cameraMap m := by
  unfold buildCameraAnimations
  rw [hasKey_modifyCamera]

theorem hasKey_saveAndClearLimits (st : Camera) (n m : String) :
    hasKey (saveAndClearLimits st n).1.cameraMap m = hasKey st.cameraMap m := by
  unfold saveAndClearLimits
  cases find? st.cameraMap n
  · rfl
  · dsimp only
    rw [hasKey_modifyCamera]

theorem hasKey_removeOldObserver (st : Camera) (n m : String) :
    hasKey (removeOldObserver st n).cameraMap m = hasKey st.cameraMap m := by
  unfold removeOldObserver
  cases find? st.firstCameraInteractionObserverMap n
  · rfl
  · rw [hasKey_modifyCamera]

theorem hasKey_assignFinalKeyframes (st : Camera) (n m : String) :
    hasKey (assignFinalKeyframes st n).cameraMap m = hasKey st.cameraMap m := by
  unfold assignFinalKeyframes
  rw [hasKey_modifyCamera]

theorem hasKey_createCamera_self (st : Camera) (n : String) :
    hasKey (createCamera st n).cameraMap n = true := by
  simp [createCamera, hasKey, find?_upsert]

theorem idx_modifyCamera (st : Camera) (n : String)
    (f : ArcRotateCamera → ArcRotateCamera) :
    (modifyCamera st n f).latestUpdateIndexMap = st.latestUpdateIndexMap := by
  unfold modifyCamera
  cases find? st.cameraMap n <;> rfl

theorem idx_stopAnimationOn (st : Camera) (cn : String) (a : Anim) :
    (stopAnimationOn st cn a).latestUpdateIndexMap = st.latestUpdateIndexMap := by
  unfold stopAnimationOn
  split
  · simp [idx_modifyCamera]
  · rfl

theorem idx_foldl_stop (l : List Anim) (st : Camera) (cn : String) :
    ((l.foldl (fun s a => stopAnimationOn s cn a) st)).latestUpdateIndexMap =
      st.latestUpdateIndexMap := by
  induction l generalizing st with
  | nil => rfl
  | cons a t ih => rw [List.foldl_cons, ih, idx_stopAnimationOn]

theorem idx_stopAndClear (st : Camera) (n : String) :
    (stopAndClearAnimations st n).latestUpdateIndexMap = st.latestUpdateIndexMap := by
  unfold stopAndClearAnimations
  cases find? st.cameraMap n
  · rfl
  · dsimp only
    rw [idx_modifyCamera, idx_foldl_stop]

theorem idx_buildCameraAnimations (st : Camera) (n : String)
    (ext : ExtractedProperties) (cfgA minim : Value) (lf : ℝ) :
    (buildCameraAnimations st n ext cfgA minim lf).latestUpdateIndexMap =
      st.latestUpdateIndexMap := by
  unfold buildCameraAnimations
  rw [idx_modifyCamera]

theorem idx_saveAndClearLimits (st : Camera) (n : String) :
    (saveAndClearLimits st n).1.latestUpdateIndexMap = st.latestUpdateIndexMap := by
  unfold saveAndClearLimits
  cases find? st.cameraMap n
  · rfl
  · dsimp only
    rw [idx_modifyCamera]

theorem idx_removeOldObserver (st : Camera) (n : String) :
    (removeOldObserver st n).latestUpdateIndexMap = st.latestUpdateIndexMap := by
  unfold removeOldObserver
  cases find? st.firstCameraInteractionObserverMap n
  · rfl
  · rw [idx_modifyCamera]

theorem idx_assignFinalKeyframes (st : Camera) (n : String) :
    (assignFinalKeyframes st n).latestUpdateIndexMap = st.latestUpdateIndexMap := by
  unfold assignFinalKeyframes
  rw [idx_modifyCamera]

/-! ## The zero-duration run: structure lemmas -/

theorem get_writeFold_notmem (l : List (String × Value)) (k : String) :
    k ∉ keysOf l → ∀ c : ArcRotateCamera,
    (l.foldl (fun cam kv => cam.set kv.1 kv.2) c).get k = c.get k := by
  induction l with
  | nil => intro _ c; rfl
  | cons kv t ih =>
    intro h c
    have h1 : k ∉ keysOf t := fun hm => h (by simp [keysOf] at hm ⊢; tauto)
    have h2 : kv.1 ≠ k := fun hc => h (by rw [← hc]; simp [keysOf])
    rw [List.foldl_cons, ih h1, get_set_ne _ _ _ _ h2]

theorem get_writeFold_mem (l : List (String × Value)) (k : String) (v : Value) :
    NoDupKeys l → find? l k = some v → ∀ c : ArcRotateCamera,
    (l.foldl (fun cam kv => cam.set kv.1 kv.2) c).get k = v := by
  induction l with
  | nil =>
    intro _ hf
    exact absurd hf (by simp [find?])
  | cons kv t ih =>
    intro hnd hf c
    obtain ⟨k1, v1⟩ := kv
    have h0 : (k1 :: t.map Prod.fst).Nodup := by simpa [NoDupKeys] using hnd
    by_cases h1 : k1 = k
    · subst h1
      have hv1 : v1 = v := by simpa [find?] using hf
      subst hv1
      rw [List.foldl_cons]
      rw [get_writeFold_notmem t _ (List.nodup_cons.mp h0).1]
      exact get_set_self c k1 v1
    · rw [List.foldl_cons]
      exact ih (List.nodup_cons.mp h0).2 (by simpa [find?, h1] using hf) _

theorem assignFold_eq_writePairs (anims : List Anim) (c : ArcRotateCamera) :
    anims.foldl (fun cam a =>
      cam.set a.targetProperty ((a.keys.getLast?.map Prod.snd).getD .undef)) c =
    (anims.map (fun a => (a.targetProperty, (a.keys.getLast?.map Prod.snd).getD .undef))).foldl
      (fun cam kv => cam.set kv.1 kv.2) c := by
  induction anims generalizing c with
  | nil => rfl
  | cons a t ih => simp [List.foldl_cons, ih]

theorem extractStep_nodup (acc : ExtractedProperties) (e : String × Value)
    (h1 : NoDupKeys acc.animatableValuesToUpdate)
    (h2 : NoDupKeys acc.specialAnimatableValuesToUpdate)
    (h3 : NoDupKeys acc.nonAnimatableValuesToUpdate) :
    NoDupKeys (extractStep acc e).animatableValuesToUpdate ∧
    NoDupKeys (extractStep acc e).specialAnimatableValuesToUpdate ∧
    NoDupKeys (extractStep acc e).nonAnimatableValuesToUpdate := by
  unfold extractStep classifyInto
  split
  · exact ⟨h1, h2, h3⟩
  · split
    · exact ⟨h1, NoDupKeys_upsert _ _ _ h2, h3⟩
    · split
      · exact ⟨NoDupKeys_upsert _ _ _ h1, h2, h3⟩
      · exact ⟨h1, h2, NoDupKeys_upsert _ _ _ h3⟩

theorem foldl_extract_nodup (prop : List (String × Value)) (acc : ExtractedProperties)
    (h1 : NoDupKeys acc.animatableValuesToUpdate)
    (h2 : NoDupKeys acc.specialAnimatableValuesToUpdate)
    (h3 : NoDupKeys acc.nonAnimatableValuesToUpdate) :
    NoDupKeys (List.foldl extractStep acc prop).animatableValuesToUpdate ∧
    NoDupKeys (List.foldl extractStep acc prop).specialAnimatableValuesToUpdate ∧
    NoDupKeys (List.foldl extractStep acc prop).nonAnimatableValuesToUpdate := by
  induction prop generalizing acc with
  | nil => exact ⟨h1, h2, h3⟩
  | cons e t ih =>
    obtain ⟨g1, g2, g3⟩ := extractStep_nodup acc e h1 h2 h3
    exact ih _ g1 g2 g3

theorem extract_nodup (prop : List (String × Value)) :
    NoDupKeys (extractConfigProperties prop).animatableValuesToUpdate ∧
    NoDupKeys (extractConfigProperties prop).specialAnimatableValuesToUpdate ∧
    NoDupKeys (extractConfigProperties prop).nonAnimatableValuesToUpdate := by
  exact foldl_extract_nodup prop _ (by simp [NoDupKeys]) (by simp [NoDupKeys])
    (by simp [NoDupKeys])

theorem saveAndClear_snd_keys (st : Camera) (n : String)
    (h : hasKey st.cameraMap n = true) :
    keysOf (saveAndClearLimits st n).2 = ARC_ROTATE_CAMERA_LIMIT_PROPERTIES := by
  unfold saveAndClearLimits
  obtain ⟨c, hc⟩ := Option.isSome_iff_exists.mp (by simpa [hasKey] using h)
  rw [hc]
  simp only [keysOf, List.map_map]
  rw [show (Prod.fst ∘ fun p => (p, c.get p)) = id from rfl, List.map_id]

theorem animsOf_build_eq (st : Camera) (n : String) (ext : ExtractedProperties)
    (cfgA minim : Value) (lf : ℝ) (c : ArcRotateCamera)
    (hc : find? st.cameraMap n = some c) (hanim : c.animations = []) :
    animsOf (buildCameraAnimations st n ext cfgA minim lf) n =
      createArcRotateCameraAnimation "target"
        (nullishD (find? ext.specialAnimatableValuesToUpdate "target") (.vec3 Vec3.zero))
        lf c cfgA minim ::
      ext.animatableValuesToUpdate.map
        (fun kv => createArcRotateCameraAnimation kv.1 kv.2 lf c cfgA minim) := by
  simp [buildCameraAnimations, modifyCamera, hc, animsOf, find?_upsert, hanim]

/-- The guarded post block with a live guard and a present camera: the camera
ends with the merged limit and non-animatable writes applied (skipping
undefined values) over the cleared-animations camera. -/
theorem gcp_postOps (st : Camera) (p : PendingUpdate) (k : String) (c : ArcRotateCamera)
    (hg : find? st.latestUpdateIndexMap p.cameraName = some p.updateIndexAtStart)
    (hc : find? st.cameraMap p.cameraName = some c) :
    getCamProp (postAnimationOps st p) p.cameraName k =
      ((mergeEntries p.oldCameraLimits p.nonAnimatableValuesToUpdate).foldl
        (fun (cam : ArcRotateCamera) (kv : String × Value) =>
          if kv.2.isUndef = true then cam else cam.set kv.1 kv.2)
        { c with animations := [] }).get k := by
  unfold postAnimationOps
  rw [if_pos hg]
  dsimp only
  have hc1 : find? (modifyCamera st p.cameraName
      (fun c => { c with animations := [] })).cameraMap p.cameraName =
      some { c with animations := [] } := find?_modifyCamera_self st _ _ c hc
  split
  · rw [gcp_registerObserver]
    exact gcp_modify_some _ _ _ _ k hc1
  · exact gcp_modify_some _ _ _ _ k hc1

/-! ## Pre-phase structure lemmas -/

theorem hasKey_prePhaseA_self (st : Camera) (prop : List (String × Value)) (n : String) :
    hasKey (prePhaseA st prop n).1.cameraMap n = true := by
  unfold prePhaseA
  dsimp only
  rw [hasKey_stopAndClear]
  dsimp only
  rw [hasKey_applyFramingBehavior, hasKey_applyAutoRotationBehavior, hasKey_applyAttachControl]
  by_cases hk : hasKey st.cameraMap n = true
  · rw [if_pos hk]
    exact hk
  · rw [if_neg hk]
    exact hasKey_createCamera_self st n

theorem idx_prePhaseA_self (st : Camera) (prop : List (String × Value)) (n : String) :
    find? (prePhaseA st prop n).1.latestUpdateIndexMap n = some (prePhaseA st prop n).2 := by
  unfold prePhaseA
  dsimp only
  rw [idx_stopAndClear]
  dsimp only
  rw [find?_upsert, if_pos rfl]

theorem animsOf_prePhaseA_self (st : Camera) (prop : List (String × Value)) (n : String) :
    animsOf (prePhaseA st prop n).1 n = [] := by
  unfold prePhaseA
  dsimp only
  exact animsOf_stopAndClear_self _ _

theorem prePhase_cameraName (st : Camera) (prop : List (String × Value)) (n : String) :
    (prePhaseCommon st prop n).2.cameraName = n := rfl

theorem prePhase_nonAnim (st : Camera) (prop : List (String × Value)) (n : String) :
    (prePhaseCommon st prop n).2.nonAnimatableValuesToUpdate =
      (extractConfigProperties prop).nonAnimatableValuesToUpdate := rfl

theorem prePhase_guard (st : Camera) (prop : List (String × Value)) (n : String) :
    find? (prePhaseCommon st prop n).1.latestUpdateIndexMap n =
      some (prePhaseCommon st prop n).2.updateIndexAtStart := by
  unfold prePhaseCommon
  dsimp only
  rw [idx_removeOldObserver, idx_saveAndClearLimits, idx_buildCameraAnimations]
  exact idx_prePhaseA_self st prop n

theorem prePhase_hasKey (st : Camera) (prop : List (String × Value)) (n : String) :
    hasKey (prePhaseCommon st prop n).1.cameraMap n = true := by
  unfold prePhaseCommon
  dsimp only
  rw [hasKey_removeOldObserver, hasKey_saveAndClearLimits, hasKey_buildCameraAnimations]
  exact hasKey_prePhaseA_self st prop n

theorem prePhase_oldLimits_keys (st : Camera) (prop : List (String × Value)) (n : String) :
    keysOf (prePhaseCommon st prop n).2.oldCameraLimits =
      ARC_ROTATE_CAMERA_LIMIT_PROPERTIES := by
  unfold prePhaseCommon
  dsimp only
  apply saveAndClear_snd_keys
  rw [hasKey_buildCameraAnimations]
  exact hasKey_prePhaseA_self st prop n

theorem prePhase_anims_eq (st : Camera) (prop : List (String × Value)) (n : String) :
    animsOf (prePhaseCommon st prop n).1 n = (prePhaseCommon st prop n).2.anims := rfl

theorem prePhase_anim_pairs (st : Camera) (prop : List (String × Value)) (n : String)
    (hmin : ((find? prop "minimizeRotation").getD .undef).truthy = false) :
    ((prePhaseCommon st prop n).2.anims.map
        (fun a => (a.targetProperty, (a.keys.getLast?.map Prod.snd).getD Value.undef))) =
      ("target", nullishD (find? (extractConfigProperties prop).specialAnimatableValuesToUpdate
          "target") (.vec3 Vec3.zero)) ::
        (extractConfigProperties prop).animatableValuesToUpdate := by
  rw [← prePhase_anims_eq]
  unfold prePhaseCommon
  dsimp only
  rw [animsOf_removeOldObserver, animsOf_saveAndClearLimits]
  obtain ⟨c6, hc6⟩ := Option.isSome_iff_exists.mp
    (by simpa [hasKey] using hasKey_prePhaseA_self st prop n)
  have h6 : c6.animations = [] := by
    have h := animsOf_prePhaseA_self st prop n
    simpa [animsOf, hc6] using h
  rw [animsOf_build_eq _ _ _ _ _ _ c6 hc6 h6]
  simp only [List.map_cons, List.map_map]
  congr 1
  · rw [createAnim_keys_of_flag_false _ _ _ _ _ _ hmin]
    simp [createAnim_targetProperty, List.getLast?]
  · have hpt : ∀ kv : String × Value,
        ((createArcRotateCameraAnimation kv.1 kv.2 (lastFrameOf (durationOf prop)) c6
          (truthyD (find? prop "cameraAnimationConfig") DEFAULT_CAMERA_ANIMATION_CONFIG)
          ((find? prop "minimizeRotation").getD Value.undef)).targetProperty,
         (((createArcRotateCameraAnimation kv.1 kv.2 (lastFrameOf (durationOf prop)) c6
          (truthyD (find? prop "cameraAnimationConfig") DEFAULT_CAMERA_ANIMATION_CONFIG)
          ((find? prop "minimizeRotation").getD Value.undef)).keys.getLast?.map Prod.snd).getD
            Value.undef)) = kv := by
      intro kv
      rw [createAnim_keys_of_flag_false _ _ _ _ _ _ hmin]
      simp [createAnim_targetProperty, List.getLast?]
    calc ((extractConfigProperties prop).animatableValuesToUpdate.map _)
        = (extractConfigProperties prop).animatableValuesToUpdate.map id := List.map_congr_left (fun kv _ => hpt kv)
      _ = _ := List.map_id _

theorem run0_eq (st : Camera) (prop : List (String × Value)) (n : String)
    (hen : (nullishD (find? prop "enable") (.bool true)).truthy = true)
    (hd0 : durationOf prop = 0) :
    (updateArcRotateCameraRun st prop n).1 =
      postAnimationOps
        (assignFinalKeyframes (prePhaseCommon st
          (upsert prop "enable" (nullishD (find? prop "enable") (.bool true))) n).1 n)
        (prePhaseCommon st
          (upsert prop "enable" (nullishD (find? prop "enable") (.bool true))) n).2 := by
  unfold updateArcRotateCameraRun updateArcRotateCameraPhase1
  dsimp only
  simp [hen, durationOf_upsert_enable, hd0, lt_irrefl]

/-! ## Claim C6: zero-duration updates resolve to configured values -/

theorem get_clearAnims (c : ArcRotateCamera) (k : String) :
    ({ c with animations := [] } : ArcRotateCamera).get k = c.get k := rfl

theorem limit_keys_not_animatable :
    ∀ p ∈ ARC_ROTATE_CAMERA_LIMIT_PROPERTIES,
      hasKey CAMERA_ANIMATION_TYPE_MAP p = false := by decide

/-- Claim C6 (amended by the rotation-minimization proviso): for an enabled
entry with animationDuration 0 or absent, processed with no overlapping
cycle, the run begins no playback, and — when minimizeRotation is not truthy
— the camera target equals the configured target (or the zero vector), every
extracted animatable property equals its configured (converted) value, and
every extracted non-animatable property with a defined value equals its
configured (converted) value. -/
theorem claimC6_theorem (st : Camera) (prop : List (String × Value)) (name : String)
    (hen : (nullishD (find? prop "enable") (.bool true)).truthy = true)
    (hdur : find? prop "animationDuration" = none ∨
      find? prop "animationDuration" = some (.num 0)) :
    ((updateArcRotateCameraRun st prop name).1.scene.playbackLog = st.scene.playbackLog) ∧
    (((find? prop "minimizeRotation").getD Value.undef).truthy = false →
      (getCamProp (updateArcRotateCameraRun st prop name).1 name "target" =
        nullishD (find? (extractConfigProperties (upsert prop "enable"
          (nullishD (find? prop "enable") (.bool true)))).specialAnimatableValuesToUpdate
          "target") (.vec3 Vec3.zero)) ∧
      (∀ k v, find? (extractConfigProperties (upsert prop "enable"
          (nullishD (find? prop "enable") (.bool true)))).animatableValuesToUpdate k = some v →
        getCamProp (updateArcRotateCameraRun st prop name).1 name k = v)) ∧
    (∀ k v, find? (extractConfigProperties (upsert prop "enable"
        (nullishD (find? prop "enable") (.bool true)))).nonAnimatableValuesToUpdate k = some v →
      v.isUndef = false →
      getCamProp (updateArcRotateCameraRun st prop name).1 name k = v) := by
  have hd0 : durationOf prop = 0 := by
    rcases hdur with h | h <;>
      simp [durationOf, h, nullishD, Value.isNullish, Value.asNumD]
  rw [run0_eq st prop name hen hd0]
  have hminT : find? (upsert prop "enable" (nullishD (find? prop "enable") (.bool true)))
      "minimizeRotation" = find? prop "minimizeRotation" := by
    rw [find?_upsert, if_neg (by decide : ¬("enable" = "minimizeRotation"))]
  generalize hP2 : upsert prop "enable" (nullishD (find? prop "enable") (Value.bool true))
    = prop2
  rw [hP2] at hminT
  -- shared infrastructure for the two property conjuncts
  obtain ⟨cA, hcA⟩ := Option.isSome_iff_exists.mp
    (by simpa [hasKey] using prePhase_hasKey st prop2 name)
  have hname := prePhase_cameraName st prop2 name
  have hcS1 : find? (assignFinalKeyframes (prePhaseCommon st prop2 name).1 name).cameraMap
      ((prePhaseCommon st prop2 name).2.cameraName) =
      some (cA.animations.foldl (fun cam a =>
        cam.set a.targetProperty ((a.keys.getLast?.map Prod.snd).getD Value.undef)) cA) := by
    rw [hname]
    unfold assignFinalKeyframes
    exact find?_modifyCamera_self _ _ _ _ hcA
  have hg : find? (assignFinalKeyframes (prePhaseCommon st prop2 name).1
      name).latestUpdateIndexMap ((prePhaseCommon st prop2 name).2.cameraName) =
      some ((prePhaseCommon st prop2 name).2.updateIndexAtStart) := by
    rw [idx_assignFinalKeyframes, hname]
    exact prePhase_guard st prop2 name
  have hpost : ∀ k, getCamProp (postAnimationOps
      (assignFinalKeyframes (prePhaseCommon st prop2 name).1 name)
      (prePhaseCommon st prop2 name).2) name k =
      ((mergeEntries (prePhaseCommon st prop2 name).2.oldCameraLimits
          (prePhaseCommon st prop2 name).2.nonAnimatableValuesToUpdate).foldl
        (fun (cam : ArcRotateCamera) (kv : String × Value) =>
          if kv.2.isUndef = true then cam else cam.set kv.1 kv.2)
        { cA.animations.foldl (fun cam a =>
            cam.set a.targetProperty ((a.keys.getLast?.map Prod.snd).getD Value.undef)) cA
          with animations := [] }).get k := by
    intro k
    have := gcp_postOps (assignFinalKeyframes (prePhaseCommon st prop2 name).1 name)
      (prePhaseCommon st prop2 name).2 k _ hg hcS1
    rwa [hname] at this
  obtain ⟨hndA, hndS, hndN⟩ := extract_nodup prop2
  obtain ⟨hinvS, hinvA, hinvN⟩ := extract_inv prop2
  have hnotmerged : ∀ k, hasKey CAMERA_ANIMATION_TYPE_MAP k = true →
      k ∉ keysOf (mergeEntries (prePhaseCommon st prop2 name).2.oldCameraLimits
        (prePhaseCommon st prop2 name).2.nonAnimatableValuesToUpdate) := by
    intro k hkmap hmem
    rcases mem_keysOf_mergeEntries _ _ _ hmem with hold | hna
    · rw [prePhase_oldLimits_keys] at hold
      have hf := limit_keys_not_animatable k hold
      rw [hkmap] at hf
      exact Bool.noConfusion hf
    · rw [prePhase_nonAnim] at hna
      have hf := (hinvN k hna).2
      rw [hkmap] at hf
      exact Bool.noConfusion hf
  refine ⟨?_, ?_, ?_⟩
  · rw [playbackLog_postAnimationOps, playbackLog_assignFinalKeyframes, playbackLog_prePhase]
  · intro hmin
    have hmin2 : ((find? prop2 "minimizeRotation").getD Value.undef).truthy = false := by
      rw [hminT]
      exact hmin
    have hanims : cA.animations = (prePhaseCommon st prop2 name).2.anims := by
      have h := prePhase_anims_eq st prop2 name
      simpa [animsOf, hcA] using h
    have hpairs := prePhase_anim_pairs st prop2 name hmin2
    rw [← hanims] at hpairs
    have hndPairs : NoDupKeys (("target",
        nullishD (find? (extractConfigProperties prop2).specialAnimatableValuesToUpdate
          "target") (.vec3 Vec3.zero)) ::
        (extractConfigProperties prop2).animatableValuesToUpdate) := by
      have htni : "target" ∉ keysOf (extractConfigProperties prop2).animatableValuesToUpdate := by
        intro hm
        exact absurd rfl (hinvA "target" hm).1
      simpa [NoDupKeys, keysOf] using And.intro htni hndA
    have hwrite : ∀ k v2,
        find? (("target", nullishD (find? (extractConfigProperties
            prop2).specialAnimatableValuesToUpdate "target") (.vec3 Vec3.zero)) ::
          (extractConfigProperties prop2).animatableValuesToUpdate) k = some v2 →
        hasKey CAMERA_ANIMATION_TYPE_MAP k = true →
        getCamProp (postAnimationOps
          (assignFinalKeyframes (prePhaseCommon st prop2 name).1 name)
          (prePhaseCommon st prop2 name).2) name k = v2 := by
      intro k v2 hfk hkmap
      rw [hpost k, get_skipUndefFold_notmem _ _ (hnotmerged k hkmap), get_clearAnims,
        assignFold_eq_writePairs, hpairs]
      exact get_writeFold_mem _ _ _ hndPairs hfk _
    constructor
    · exact hwrite "target" _ (by rw [find?, if_pos rfl]) (by decide)
    · intro k v hk
      have hkmem := find?_isSome_mem _ _ _ hk
      have hne : "target" ≠ k := fun hc => (hinvA k hkmem).1 hc.symm
      exact hwrite k v (by rw [find?, if_neg hne]; exact hk) (hinvA k hkmem).2
  · intro k v hk hv
    rw [hpost k]
    have hmerged : find? (mergeEntries (prePhaseCommon st prop2 name).2.oldCameraLimits
        (prePhaseCommon st prop2 name).2.nonAnimatableValuesToUpdate) k = some v := by
      apply find?_mergeEntries_right
      · rw [prePhase_nonAnim]
        exact hndN
      · rw [prePhase_nonAnim]
        exact hk
    exact get_skipUndefFold_mem _ _ _ (NoDupKeys_mergeEntries _ _) hmerged hv _

theorem deltaWrapC6 : ToRadians (DeltaAngle (ToDegrees (2 * Real.pi)) (ToDegrees 0)) = 0 := by
  have h1 : ToDegrees (2 * Real.pi) = 360 := by
    unfold ToDegrees
    field_simp
    ring
  have h2 : ToDegrees 0 = 0 := by
    unfold ToDegrees
    simp
  rw [h1, h2]
  unfold DeltaAngle Repeat ToRadians
  norm_num

/-- Claim C6, counterexample to the claim as stated: set alpha of camera A to
two-pi, then configure alpha 0 with minimizeRotation on, both with no
duration and no overlap.  The claim predicts a final alpha of 0 (the
configured value); the code resolves alpha to current plus the wrapped
delta, which is two-pi, not 0. -/
theorem claimC6_counterexample :
    find? propC6b "animationDuration" = none ∧
    find? propC6b "alpha" = some (Value.num 0) ∧
    getCamProp stC6b "A" "alpha" = Value.num (2 * Real.pi) ∧
    Value.num (2 * Real.pi) ≠ Value.num 0 := by
  refine ⟨by norm_num +decide [propC6b, find?], by norm_num +decide [propC6b, find?], ?_, ?_⟩
  · norm_num +decide [stC6b, stC6a, stC6, propC6a, propC6b,
      updateCameras, processEntries, processEntriesGo, processEntry, isArcRotateType,
      updateArcRotateCameraRun, updateArcRotateCameraPhase1, updateArcRotateCameraPhase2,
      prePhaseCommon, prePhaseA, applyPlaybackCompletion, postAnimationOps, registerObserver,
      assignFinalKeyframes, mergeEntries, durationOf, initialCamera, Camera.new, Scene.empty,
      removeCamera, find?, eraseKey, upsert, hasKey, Scene.removeCam, Scene.disposeCamera,
      nullishD, Value.isNullish, Value.truthy, Value.isUndef, Value.asNumD, createCamera,
      newArcRotateCamera, applyAttachControl, applyAutoRotationBehavior, applyFramingBehavior,
      modifyCamera, Value.getField, stopAndClearAnimations, stopAnimationOn, Scene.isRunning,
      Scene.stopRunning, extractConfigProperties, extractStep, classifyInto, convStep,
      CAMERA_PROPERTIES_TO_IGNORE_DURING_EXTRACTION, strIncludes, convertDegreesToRadians,
      splitHead, splitFirst, Value.toRadians, CAMERA_ANIMATION_TYPE_MAP, ANIMATIONTYPE_FLOAT,
      ANIMATIONTYPE_VECTOR3, truthyD, DEFAULT_CAMERA_ANIMATION_CONFIG, lastFrameOf,
      buildCameraAnimations, createArcRotateCameraAnimation, ArcRotateCamera.get,
      ArcRotateCamera.set, saveAndClearLimits, ARC_ROTATE_CAMERA_LIMIT_PROPERTIES,
      removeOldObserver, animsOf, beginAnimationOn, UpdateOutcome.state, UpdateOutcome.propOut,
      getCamProp, resumeAfter, List.getLast?, deltaWrapC6]
  · intro h
    rw [Value.num.injEq] at h
    have := Real.pi_ne_zero
    have h2 : Real.pi = 0 := by linarith
    exact this h2

theorem claimC6_witness :
    getCamProp (updateArcRotateCameraRun stC6
      [("type", Value.str "arcRotateCamera"), ("radius", Value.num 7)] "A").1 "A" "radius"
      = Value.num 7 := by
  have h := claimC6_theorem stC6
    [("type", Value.str "arcRotateCamera"), ("radius", Value.num 7)] "A"
    (by norm_num +decide [find?, nullishD, Value.isNullish, Value.truthy])
    (Or.inl (by norm_num +decide [find?]))
  refine (h.2.1 (by norm_num +decide [find?])).2 "radius" (Value.num 7) ?_
  norm_num +decide [find?, upsert, extractConfigProperties, extractStep, classifyInto,
    convStep, CAMERA_PROPERTIES_TO_IGNORE_DURING_EXTRACTION, strIncludes, splitFirst,
    splitHead, Value.toRadians, CAMERA_ANIMATION_TYPE_MAP, hasKey, convertDegreesToRadians,
    nullishD, Value.isNullish]

/-! ## Claim C1: the staleness guard of the post-animation block -/

theorem foldSkip_animations (l : List (String × Value)) :
    ∀ cam : ArcRotateCamera,
      (l.foldl (fun (cam : ArcRotateCamera) (kv : String × Value) =>
        if kv.2.isUndef = true then cam else cam.set kv.1 kv.2) cam).animations
      = cam.animations := by
  induction l with
  | nil => intro cam; rfl
  | cons e t ih =>
    intro cam
    rw [List.foldl_cons, ih]
    by_cases h : e.2.isUndef = true <;> simp [h, ArcRotateCamera.set]

theorem flagMap_modifyCamera (st : Camera) (n : String)
    (f : ArcRotateCamera → ArcRotateCamera) :
    (modifyCamera st n f).firstCameraInteractionMap = st.firstCameraInteractionMap := by
  unfold modifyCamera
  cases find? st.cameraMap n <;> rfl

theorem nextObs_modifyCamera (st : Camera) (n : String)
    (f : ArcRotateCamera → ArcRotateCamera) :
    (modifyCamera st n f).nextObserverId = st.nextObserverId := by
  unfold modifyCamera
  cases find? st.cameraMap n <;> rfl

theorem animsOf_setObsFields (st : Camera) (om : List (String × ℕ)) (k : ℕ) (m : String) :
    animsOf { st with firstCameraInteractionObserverMap := om, nextObserverId := k } m
      = animsOf st m := rfl

theorem animsOf_registerObserver (st : Camera) (n m : String) :
    animsOf (registerObserver st n) m = animsOf st m := by
  unfold registerObserver
  dsimp only
  rw [animsOf_setObsFields]
  exact animsOf_modify_of_preserve st n m _ (fun c => rfl)

theorem applyPlayback_no_running (st : Camera) (p : PendingUpdate)
    (h : st.scene.running = []) : applyPlaybackCompletion st p = st := by
  unfold applyPlaybackCompletion
  generalize p.anims = l
  induction l with
  | nil => rfl
  | cons a t ih =>
    rw [List.foldl_cons, if_neg (by rw [Scene.isRunning, h]; simp)]
    exact ih

set_option maxHeartbeats 1600000 in
theorem scn_hsusp : (scnStart oracleU).suspendedB = true := by
  norm_num +decide [scnFinal, scnMid, scnStart, scnPropSlow, scnPropFast, oracleU,
      UpdateOutcome.suspendedB, UpdateOutcome.pendingD,
      updateCameras, processEntries, processEntriesGo, processEntry, isArcRotateType,
      updateArcRotateCameraRun, updateArcRotateCameraPhase1, updateArcRotateCameraPhase2,
      prePhaseCommon, prePhaseA, applyPlaybackCompletion, postAnimationOps, registerObserver,
      assignFinalKeyframes, mergeEntries, durationOf, initialCamera, Camera.new, Scene.empty,
      removeCamera, find?, eraseKey, upsert, hasKey, Scene.removeCam, Scene.disposeCamera,
      nullishD, Value.isNullish, Value.truthy, Value.isUndef, Value.asNumD, createCamera,
      newArcRotateCamera, applyAttachControl, applyAutoRotationBehavior, applyFramingBehavior,
      modifyCamera, Value.getField, stopAndClearAnimations, stopAnimationOn, Scene.isRunning,
      Scene.stopRunning, extractConfigProperties, extractStep, classifyInto, convStep,
      CAMERA_PROPERTIES_TO_IGNORE_DURING_EXTRACTION, strIncludes, convertDegreesToRadians,
      splitHead, splitFirst, Value.toRadians, CAMERA_ANIMATION_TYPE_MAP, ANIMATIONTYPE_FLOAT,
      ANIMATIONTYPE_VECTOR3, truthyD, DEFAULT_CAMERA_ANIMATION_CONFIG, lastFrameOf,
      buildCameraAnimations, createArcRotateCameraAnimation, ArcRotateCamera.get,
      ArcRotateCamera.set, saveAndClearLimits, ARC_ROTATE_CAMERA_LIMIT_PROPERTIES,
      removeOldObserver, animsOf, beginAnimationOn, UpdateOutcome.state, UpdateOutcome.propOut,
      getCamProp, resumeAfter, List.getLast?, List.any_cons, List.any_nil, -List.any_eq_true]

set_option maxHeartbeats 1600000 in
theorem scn_hname : (scnStart oracleU).pendingD.cameraName = "A" := by
  norm_num +decide [scnFinal, scnMid, scnStart, scnPropSlow, scnPropFast, oracleU,
      UpdateOutcome.suspendedB, UpdateOutcome.pendingD,
      updateCameras, processEntries, processEntriesGo, processEntry, isArcRotateType,
      updateArcRotateCameraRun, updateArcRotateCameraPhase1, updateArcRotateCameraPhase2,
      prePhaseCommon, prePhaseA, applyPlaybackCompletion, postAnimationOps, registerObserver,
      assignFinalKeyframes, mergeEntries, durationOf, initialCamera, Camera.new, Scene.empty,
      removeCamera, find?, eraseKey, upsert, hasKey, Scene.removeCam, Scene.disposeCamera,
      nullishD, Value.isNullish, Value.truthy, Value.isUndef, Value.asNumD, createCamera,
      newArcRotateCamera, applyAttachControl, applyAutoRotationBehavior, applyFramingBehavior,
      modifyCamera, Value.getField, stopAndClearAnimations, stopAnimationOn, Scene.isRunning,
      Scene.stopRunning, extractConfigProperties, extractStep, classifyInto, convStep,
      CAMERA_PROPERTIES_TO_IGNORE_DURING_EXTRACTION, strIncludes, convertDegreesToRadians,
      splitHead, splitFirst, Value.toRadians, CAMERA_ANIMATION_TYPE_MAP, ANIMATIONTYPE_FLOAT,
      ANIMATIONTYPE_VECTOR3, truthyD, DEFAULT_CAMERA_ANIMATION_CONFIG, lastFrameOf,
      buildCameraAnimations, createArcRotateCameraAnimation, ArcRotateCamera.get,
      ArcRotateCamera.set, saveAndClearLimits, ARC_ROTATE_CAMERA_LIMIT_PROPERTIES,
      removeOldObserver, animsOf, beginAnimationOn, UpdateOutcome.state, UpdateOutcome.propOut,
      getCamProp, resumeAfter, List.getLast?, List.any_cons, List.any_nil, -List.any_eq_true]

set_option maxHeartbeats 1600000 in
theorem scn_hidx : (scnStart oracleU).pendingD.updateIndexAtStart = 1 := by
  norm_num +decide [scnFinal, scnMid, scnStart, scnPropSlow, scnPropFast, oracleU,
      UpdateOutcome.suspendedB, UpdateOutcome.pendingD,
      updateCameras, processEntries, processEntriesGo, processEntry, isArcRotateType,
      updateArcRotateCameraRun, updateArcRotateCameraPhase1, updateArcRotateCameraPhase2,
      prePhaseCommon, prePhaseA, applyPlaybackCompletion, postAnimationOps, registerObserver,
      assignFinalKeyframes, mergeEntries, durationOf, initialCamera, Camera.new, Scene.empty,
      removeCamera, find?, eraseKey, upsert, hasKey, Scene.removeCam, Scene.disposeCamera,
      nullishD, Value.isNullish, Value.truthy, Value.isUndef, Value.asNumD, createCamera,
      newArcRotateCamera, applyAttachControl, applyAutoRotationBehavior, applyFramingBehavior,
      modifyCamera, Value.getField, stopAndClearAnimations, stopAnimationOn, Scene.isRunning,
      Scene.stopRunning, extractConfigProperties, extractStep, classifyInto, convStep,
      CAMERA_PROPERTIES_TO_IGNORE_DURING_EXTRACTION, strIncludes, convertDegreesToRadians,
      splitHead, splitFirst, Value.toRadians, CAMERA_ANIMATION_TYPE_MAP, ANIMATIONTYPE_FLOAT,
      ANIMATIONTYPE_VECTOR3, truthyD, DEFAULT_CAMERA_ANIMATION_CONFIG, lastFrameOf,
      buildCameraAnimations, createArcRotateCameraAnimation, ArcRotateCamera.get,
      ArcRotateCamera.set, saveAndClearLimits, ARC_ROTATE_CAMERA_LIMIT_PROPERTIES,
      removeOldObserver, animsOf, beginAnimationOn, UpdateOutcome.state, UpdateOutcome.propOut,
      getCamProp, resumeAfter, List.getLast?, List.any_cons, List.any_nil, -List.any_eq_true]

set_option maxHeartbeats 1600000 in
theorem scn_hrun : (scnMid oracleU).scene.running = [] := by
  norm_num +decide [scnFinal, scnMid, scnStart, scnPropSlow, scnPropFast, oracleU,
      UpdateOutcome.suspendedB, UpdateOutcome.pendingD,
      updateCameras, processEntries, processEntriesGo, processEntry, isArcRotateType,
      updateArcRotateCameraRun, updateArcRotateCameraPhase1, updateArcRotateCameraPhase2,
      prePhaseCommon, prePhaseA, applyPlaybackCompletion, postAnimationOps, registerObserver,
      assignFinalKeyframes, mergeEntries, durationOf, initialCamera, Camera.new, Scene.empty,
      removeCamera, find?, eraseKey, upsert, hasKey, Scene.removeCam, Scene.disposeCamera,
      nullishD, Value.isNullish, Value.truthy, Value.isUndef, Value.asNumD, createCamera,
      newArcRotateCamera, applyAttachControl, applyAutoRotationBehavior, applyFramingBehavior,
      modifyCamera, Value.getField, stopAndClearAnimations, stopAnimationOn, Scene.isRunning,
      Scene.stopRunning, extractConfigProperties, extractStep, classifyInto, convStep,
      CAMERA_PROPERTIES_TO_IGNORE_DURING_EXTRACTION, strIncludes, convertDegreesToRadians,
      splitHead, splitFirst, Value.toRadians, CAMERA_ANIMATION_TYPE_MAP, ANIMATIONTYPE_FLOAT,
      ANIMATIONTYPE_VECTOR3, truthyD, DEFAULT_CAMERA_ANIMATION_CONFIG, lastFrameOf,
      buildCameraAnimations, createArcRotateCameraAnimation, ArcRotateCamera.get,
      ArcRotateCamera.set, saveAndClearLimits, ARC_ROTATE_CAMERA_LIMIT_PROPERTIES,
      removeOldObserver, animsOf, beginAnimationOn, UpdateOutcome.state, UpdateOutcome.propOut,
      getCamProp, resumeAfter, List.getLast?, List.any_cons, List.any_nil, -List.any_eq_true]

set_option maxHeartbeats 1600000 in
theorem scn_hlat : find? (scnMid oracleU).latestUpdateIndexMap "A" = some 2 := by
  norm_num +decide [scnFinal, scnMid, scnStart, scnPropSlow, scnPropFast, oracleU,
      UpdateOutcome.suspendedB, UpdateOutcome.pendingD,
      updateCameras, processEntries, processEntriesGo, processEntry, isArcRotateType,
      updateArcRotateCameraRun, updateArcRotateCameraPhase1, updateArcRotateCameraPhase2,
      prePhaseCommon, prePhaseA, applyPlaybackCompletion, postAnimationOps, registerObserver,
      assignFinalKeyframes, mergeEntries, durationOf, initialCamera, Camera.new, Scene.empty,
      removeCamera, find?, eraseKey, upsert, hasKey, Scene.removeCam, Scene.disposeCamera,
      nullishD, Value.isNullish, Value.truthy, Value.isUndef, Value.asNumD, createCamera,
      newArcRotateCamera, applyAttachControl, applyAutoRotationBehavior, applyFramingBehavior,
      modifyCamera, Value.getField, stopAndClearAnimations, stopAnimationOn, Scene.isRunning,
      Scene.stopRunning, extractConfigProperties, extractStep, classifyInto, convStep,
      CAMERA_PROPERTIES_TO_IGNORE_DURING_EXTRACTION, strIncludes, convertDegreesToRadians,
      splitHead, splitFirst, Value.toRadians, CAMERA_ANIMATION_TYPE_MAP, ANIMATIONTYPE_FLOAT,
      ANIMATIONTYPE_VECTOR3, truthyD, DEFAULT_CAMERA_ANIMATION_CONFIG, lastFrameOf,
      buildCameraAnimations, createArcRotateCameraAnimation, ArcRotateCamera.get,
      ArcRotateCamera.set, saveAndClearLimits, ARC_ROTATE_CAMERA_LIMIT_PROPERTIES,
      removeOldObserver, animsOf, beginAnimationOn, UpdateOutcome.state, UpdateOutcome.propOut,
      getCamProp, resumeAfter, List.getLast?, List.any_cons, List.any_nil, -List.any_eq_true]

set_option maxHeartbeats 1600000 in
theorem scn_hrad : getCamProp (scnMid oracleU) "A" "radius" = Value.num 5 := by
  norm_num +decide [scnFinal, scnMid, scnStart, scnPropSlow, scnPropFast, oracleU,
      UpdateOutcome.suspendedB, UpdateOutcome.pendingD,
      updateCameras, processEntries, processEntriesGo, processEntry, isArcRotateType,
      updateArcRotateCameraRun, updateArcRotateCameraPhase1, updateArcRotateCameraPhase2,
      prePhaseCommon, prePhaseA, applyPlaybackCompletion, postAnimationOps, registerObserver,
      assignFinalKeyframes, mergeEntries, durationOf, initialCamera, Camera.new, Scene.empty,
      removeCamera, find?, eraseKey, upsert, hasKey, Scene.removeCam, Scene.disposeCamera,
      nullishD, Value.isNullish, Value.truthy, Value.isUndef, Value.asNumD, createCamera,
      newArcRotateCamera, applyAttachControl, applyAutoRotationBehavior, applyFramingBehavior,
      modifyCamera, Value.getField, stopAndClearAnimations, stopAnimationOn, Scene.isRunning,
      Scene.stopRunning, extractConfigProperties, extractStep, classifyInto, convStep,
      CAMERA_PROPERTIES_TO_IGNORE_DURING_EXTRACTION, strIncludes, convertDegreesToRadians,
      splitHead, splitFirst, Value.toRadians, CAMERA_ANIMATION_TYPE_MAP, ANIMATIONTYPE_FLOAT,
      ANIMATIONTYPE_VECTOR3, truthyD, DEFAULT_CAMERA_ANIMATION_CONFIG, lastFrameOf,
      buildCameraAnimations, createArcRotateCameraAnimation, ArcRotateCamera.get,
      ArcRotateCamera.set, saveAndClearLimits, ARC_ROTATE_CAMERA_LIMIT_PROPERTIES,
      removeOldObserver, animsOf, beginAnimationOn, UpdateOutcome.state, UpdateOutcome.propOut,
      getCamProp, resumeAfter, List.getLast?, List.any_cons, List.any_nil, -List.any_eq_true]

theorem scn_final_eq : scnFinal oracleU = scnMid oracleU := by
  unfold scnFinal
  cases hscn : scnStart oracleU with
  | finished st pr =>
    exfalso
    have h5 := scn_hsusp
    rw [hscn] at h5
    simp only [UpdateOutcome.suspendedB] at h5
    exact Bool.noConfusion h5
  | suspended st pr p =>
    have hname := scn_hname
    have hidx := scn_hidx
    rw [hscn] at hname hidx
    simp only [UpdateOutcome.pendingD] at hname hidx
    unfold resumeAfter updateArcRotateCameraPhase2
    dsimp only
    rw [applyPlayback_no_running _ _ scn_hrun]
    unfold postAnimationOps
    rw [if_neg (by rw [hname, hidx, scn_hlat]; simp)]

/-- Claim C1: the guarded post-animation block is a no-op exactly when the
generation counter of the name moved since the cycle bumped it; when the
counter still matches, the animation list is cleared, the merged limit and
non-animatable writes land on the camera, and a first-interaction observer is
registered when none is pending; and in the overlap scenario — configure A
with duration 5, then configure A with duration 0 and radius 5 before the
first resolves — the first call suspends, and after both resolve the state is
exactly the one the second call produced, with radius 5: the stale first
cycle restores nothing. -/
theorem claimC1_theorem :
    (∀ (st : Camera) (p : PendingUpdate),
      find? st.latestUpdateIndexMap p.cameraName ≠ some p.updateIndexAtStart →
      postAnimationOps st p = st) ∧
    (∀ (st : Camera) (p : PendingUpdate) (c : ArcRotateCamera) (k : String),
      find? st.latestUpdateIndexMap p.cameraName = some p.updateIndexAtStart →
      find? st.cameraMap p.cameraName = some c →
      getCamProp (postAnimationOps st p) p.cameraName k =
        ((mergeEntries p.oldCameraLimits p.nonAnimatableValuesToUpdate).foldl
          (fun (cam : ArcRotateCamera) (kv : String × Value) =>
            if kv.2.isUndef = true then cam else cam.set kv.1 kv.2)
          { c with animations := [] }).get k) ∧
    (∀ (st : Camera) (p : PendingUpdate) (c : ArcRotateCamera),
      find? st.latestUpdateIndexMap p.cameraName = some p.updateIndexAtStart →
      find? st.cameraMap p.cameraName = some c →
      animsOf (postAnimationOps st p) p.cameraName = []) ∧
    (∀ (st : Camera) (p : PendingUpdate),
      find? st.latestUpdateIndexMap p.cameraName = some p.updateIndexAtStart →
      (find? st.firstCameraInteractionMap p.cameraName).getD false = false →
      find? (postAnimationOps st p).firstCameraInteractionObserverMap p.cameraName =
        some st.nextObserverId) ∧
    ((scnStart oracleU).suspendedB = true ∧
      scnFinal oracleU = scnMid oracleU ∧
      getCamProp (scnFinal oracleU) "A" "radius" = Value.num 5) := by
  refine ⟨?_, ?_, ?_, ?_, ?_, ?_, ?_⟩
  · intro st p h
    unfold postAnimationOps
    rw [if_neg h]
  · intro st p c k hg hc
    exact gcp_postOps st p k c hg hc
  · intro st p c hg hc
    unfold postAnimationOps
    rw [if_pos hg]
    dsimp only
    have h1 := find?_modifyCamera_self st p.cameraName
      (fun c => { c with animations := [] }) c hc
    have h2 := find?_modifyCamera_self _ p.cameraName
      (fun c => (mergeEntries p.oldCameraLimits p.nonAnimatableValuesToUpdate).foldl
        (fun cam kv => if kv.2.isUndef = true then cam else cam.set kv.1 kv.2) c)
      _ h1
    have hbase : animsOf (modifyCamera (modifyCamera st p.cameraName
        (fun c => { c with animations := [] })) p.cameraName
        (fun c => (mergeEntries p.oldCameraLimits p.nonAnimatableValuesToUpdate).foldl
          (fun cam kv => if kv.2.isUndef = true then cam else cam.set kv.1 kv.2) c))
        p.cameraName = [] := by
      unfold animsOf
      rw [h2]
      dsimp only
      rw [foldSkip_animations]
    split
    · rw [animsOf_registerObserver]
      exact hbase
    · exact hbase
  · intro st p hg hflag
    unfold postAnimationOps
    rw [if_pos hg]
    dsimp only
    rw [if_pos (by rw [flagMap_modifyCamera, flagMap_modifyCamera]; exact hflag)]
    unfold registerObserver
    dsimp only
    rw [observerMap_modifyCamera, find?_upsert, if_pos rfl, nextObs_modifyCamera,
      nextObs_modifyCamera]
  · exact scn_hsusp
  · exact scn_final_eq
  · rw [scn_final_eq]
    exact scn_hrad

theorem claimC1_witness :
    (postAnimationOps (initialCamera oracleU) ⟨"X", 5, [], [], []⟩ = initialCamera oracleU) ∧
    (getCamProp (postAnimationOps (createCamera (initialCamera oracleU) "A")
        ⟨"A", 0, [], [], []⟩) "A" "radius" =
      ((mergeEntries [] []).foldl
        (fun (cam : ArcRotateCamera) (kv : String × Value) =>
          if kv.2.isUndef = true then cam else cam.set kv.1 kv.2)
        { newArcRotateCamera "A" with animations := [] }).get "radius") ∧
    (animsOf (postAnimationOps (createCamera (initialCamera oracleU) "A")
        ⟨"A", 0, [], [], []⟩) "A" = []) ∧
    (find? (postAnimationOps (createCamera (initialCamera oracleU) "A")
        ⟨"A", 0, [], [], []⟩).firstCameraInteractionObserverMap "A" = some 0) := by
  refine ⟨?_, ?_, ?_, ?_⟩
  · exact claimC1_theorem.1 (initialCamera oracleU) ⟨"X", 5, [], [], []⟩
      (by norm_num +decide [initialCamera, Camera.new, Scene.empty, find?])
  · exact claimC1_theorem.2.1 (createCamera (initialCamera oracleU) "A")
      ⟨"A", 0, [], [], []⟩ (newArcRotateCamera "A") "radius"
      (by norm_num +decide [createCamera, initialCamera, Camera.new, Scene.empty, upsert, find?])
      (by norm_num +decide [createCamera, initialCamera, Camera.new, Scene.empty, upsert, find?])
  · exact claimC1_theorem.2.2.1 (createCamera (initialCamera oracleU) "A")
      ⟨"A", 0, [], [], []⟩ (newArcRotateCamera "A")
      (by norm_num +decide [createCamera, initialCamera, Camera.new, Scene.empty, upsert, find?])
      (by norm_num +decide [createCamera, initialCamera, Camera.new, Scene.empty, upsert, find?])
  · have h := claimC1_theorem.2.2.2.1 (createCamera (initialCamera oracleU) "A")
      ⟨"A", 0, [], [], []⟩
      (by norm_num +decide [createCamera, initialCamera, Camera.new, Scene.empty, upsert, find?])
      (by norm_num +decide [createCamera, initialCamera, Camera.new, Scene.empty, upsert, find?])
    simpa [createCamera, initialCamera, Camera.new, Scene.empty] using h

end

end V3D
